import Mathlib

/-!
# Notes API (server-go): authentication gate, auth, notes, search and sync handlers

A shallow embedding of `internal/http/middleware/jwt.go` and `cors.go`, and of
the handlers in `internal/http/handlers/auth.go`, `notes.go`, `search.go`,
`sync.go` and `categories.go` (Create).

* Handlers are functions from the request (and the store) to the response (and
  the new store); a run-time panic is a response of its own.
* The relational store reached through gorm is a record of row lists.
* Third-party libraries (golang-jwt v5, go-playground validator, bcrypt,
  google/uuid) are not part of the repository.  Their cryptographic and
  encoding primitives are fields of `Lib`, over which every general theorem
  quantifies; the control flow of `jwt.ParseWithClaims` is written out.  The
  text matching of the store (`LIKE`) and `fmt.Sscanf` are arguments of the
  handlers that use them.
* Wall-clock readings (`time.Now()`) and fresh identifiers (`uuid.New()`) are
  explicit arguments.
-/

namespace NotesApi

/-! ## Go values -/

/-- A Go `map[string]V`, seen through key lookup (`m[k]`, comma-ok form). -/
abbrev GoMap (V : Type) := String → Option V

/-- The empty map `map[string]V{}`. -/
def GoMap.empty {V : Type} : GoMap V := fun _ => none

/-- Map assignment `m[k] = v`. -/
def GoMap.set {V : Type} (m : GoMap V) (k : String) (v : V) : GoMap V :=
  fun q => if q = k then some v else m q

/-- A `time.Time` instant, as Unix time in nanoseconds. -/
abbrev Time := Nat

/-- Nanoseconds per second. -/
def second : Nat := 1000000000

/-- The duration `24 * time.Hour`, in nanoseconds. -/
def hours24 : Nat := 24 * 3600 * second

/-- Go `t.Unix()`: whole seconds since the epoch. -/
def Unix (t : Time) : Int := ((t / second : Nat) : Int)

/-- A `uuid.UUID`, identified with its canonical string `u.String()`, which is
also what the `char(36)` columns hold. -/
abbrev UUID := String

/-! ## Go `strings` -/

/-- Splits a character list at the first occurrence of `sep`. -/
def cut (sep : Char) : List Char → Option (List Char × List Char)
  | [] => none
  | c :: cs =>
    if c = sep then some ([], cs)
    else match cut sep cs with
      | none => none
      | some (a, b) => some (c :: a, b)

/-- Go `strings.SplitN(s, " ", 2)`: the whole string when it has no space,
otherwise the text before the first space and the text after it. -/
def SplitN2 (s : String) : List String :=
  match cut ' ' s.toList with
  | none => [s]
  | some (a, b) => [String.mk a, String.mk b]

/-- Go `unicode.ToLower` on the runes whose lower case is an ASCII letter: the
ASCII capitals, U+0130 (capital I with dot above, to i) and U+212A (the Kelvin
sign, to k).  Every other rune is left as it is. -/
def lowerRune (c : Char) : Char :=
  if c.toNat = 0x130 then 'i' else if c.toNat = 0x212A then 'k' else c.toLower

/-- Go `strings.ToLower`, exact on every string whose lower case is an ASCII
word, which is what the comparisons made by `JWTAuth` and `Search` need; the
lower case of the other letters outside ASCII is not modelled. -/
def ToLower (s : String) : String := String.mk (s.toList.map lowerRune)

/-! ## Third-party libraries -/

/-- A decoded JSON value (`interface{}`): a string, a number (claims hold
whole seconds, as written by `signToken`), or anything else. -/
inductive JsonVal where
  | str (s : String)
  | num (n : Int)
  | other
  deriving DecidableEq, Repr

/-- Go `jwt.MapClaims`. -/
abbrev MapClaims := GoMap JsonVal

/-- The result of `jwt.Parser.ParseUnverified` together with the decoded
signature segment. -/
structure RawToken where
  alg : String
  claims : MapClaims
  signingInput : String
  signature : String

/-- Primitives of the libraries the handlers call. -/
structure Lib where
  /-- jwt: `Token.SigningString`, base64url(header) "." base64url(claims), for
  an HS256 header. -/
  signingString : MapClaims → String
  /-- jwt: `SigningMethodHS256.Sign key signingString`, base64url encoded. -/
  hmacSHA256 : String → String → String
  /-- jwt: `ParseUnverified` and the decoding of the signature segment;
  `none` when the token is malformed or names an unknown algorithm. -/
  parseUnverified : String → Option RawToken
  /-- jwt: `Method.Verify` of the algorithms other than HS256
  (algorithm, key, signing input, signature). -/
  verifyOther : String → String → String → String → Bool
  /-- validator: the `email` tag. -/
  isEmail : String → Bool
  /-- bcrypt: `GenerateFromPassword` at the default cost. -/
  GenerateFromPassword : String → String
  /-- bcrypt: `CompareHashAndPassword hash password` returns nil. -/
  CompareHashAndPassword : String → String → Bool
  /-- uuid: `Parse`, returning the canonical form. -/
  uuidParse : String → Option UUID

/-- jwt `Token.SignedString` for `NewWithClaims(SigningMethodHS256, claims)`. -/
def SignedString (lib : Lib) (key : String) (claims : MapClaims) : String :=
  lib.signingString claims ++ "." ++ lib.hmacSHA256 key (lib.signingString claims)

/-- jwt `MapClaims.parseNumericDate`: an absent claim and the number 0 both
give no date; a claim that is not a number is an error. -/
def parseNumericDate (m : MapClaims) (key : String) : Except Unit (Option Int) :=
  match m key with
  | none => .ok none
  | some (.num n) => if n = 0 then .ok none else .ok (some n)
  | some _ => .error ()

/-- jwt `Validator.verifyExpiresAt` (claim not required, no leeway):
passes when `now.Before(exp)`. -/
def verifyExpiresAt (claims : MapClaims) (now : Time) : Bool :=
  match parseNumericDate claims "exp" with
  | .error _ => false
  | .ok none => true
  | .ok (some exp) => decide ((now : Int) < exp * (second : Int))

/-- jwt `Validator.verifyNotBefore` (claim not required, no leeway):
passes unless `now.Before(nbf)`. -/
def verifyNotBefore (claims : MapClaims) (now : Time) : Bool :=
  match parseNumericDate claims "nbf" with
  | .error _ => false
  | .ok none => true
  | .ok (some nbf) => !decide ((now : Int) < nbf * (second : Int))

/-- jwt `Validator.Validate` of the default validator: expiry and not-before
are checked, nothing else is configured. -/
def Validate (claims : MapClaims) (now : Time) : Bool :=
  verifyExpiresAt claims now && verifyNotBefore claims now

/-- The errors of `jwt.ParseWithClaims`. -/
inductive ParseError where
  | malformed
  | signatureInvalid
  | invalidClaims
  deriving DecidableEq, Repr

/-- jwt v5 `ParseWithClaims(tokenStr, claims, keyFunc)` with a key function
that returns `key`: decode, verify the signature, validate the claims at the
instant `now`; the token is `Valid` exactly when no error is returned. -/
def ParseWithClaims (lib : Lib) (now : Time) (key : String) (tokenStr : String) :
    Except ParseError MapClaims :=
  match lib.parseUnverified tokenStr with
  | none => .error .malformed
  | some raw =>
    let verified :=
      if raw.alg = "HS256" then raw.signature == lib.hmacSHA256 key raw.signingInput
      else lib.verifyOther raw.alg key raw.signingInput raw.signature
    if !verified then .error .signatureInvalid
    else if !Validate raw.claims now then .error .invalidClaims
    else .ok raw.claims

/-! ## gin -/

/-- The error object `gin.H` with keys success, error and code. -/
structure ErrorBody where
  success : Bool
  error : String
  code : Option String
  deriving DecidableEq, Repr

/-- The part of `gin.Context` the middleware touches. -/
structure Context where
  /-- request headers -/
  header : GoMap String
  /-- values stored by `c.Set` -/
  keys : GoMap String
  /-- status and JSON body written so far -/
  written : Option (Nat × ErrorBody)
  /-- set by `c.Abort...` -/
  aborted : Bool
  /-- whether `c.Next()` ran the downstream handlers -/
  nextRan : Bool

/-- A request context as the router hands it to the first middleware. -/
def Context.request (header : GoMap String) : Context :=
  ⟨header, GoMap.empty, none, false, false⟩

/-- gin `c.GetHeader`: the empty string when the header is absent. -/
def Context.GetHeader (c : Context) (k : String) : String := (c.header k).getD ""

/-- gin `c.GetString`: the empty string when the key is not set. -/
def Context.GetString (c : Context) (k : String) : String := (c.keys k).getD ""

/-- gin `c.AbortWithStatusJSON`. -/
def Context.AbortWithStatusJSON (c : Context) (status : Nat) (body : ErrorBody) : Context :=
  { c with written := some (status, body), aborted := true }

/-- gin `c.Set`. -/
def Context.Set (c : Context) (k v : String) : Context :=
  { c with keys := c.keys.set k v }

/-- gin `c.Next`. -/
def Context.Next (c : Context) : Context := { c with nextRan := true }

/-! ## middleware/jwt.go -/

/-- The two clock readings made while `JWTAuth` handles one request: the one
inside the jwt validator and the one of the handler's own expiry check. -/
structure Clock where
  validator : Time
  handler : Time

/-- Go `JWTAuth(secret)` applied to a request context. -/
def JWTAuth (lib : Lib) (secret : String) (clock : Clock) (c : Context) : Context :=
  let auth := c.GetHeader "Authorization"
  match SplitN2 auth with
  | [scheme, tokenStr] =>
    if ToLower scheme ≠ "bearer" then
      c.AbortWithStatusJSON 401 ⟨false, "Missing token", some "TOKEN_INVALID"⟩
    else
      match ParseWithClaims lib clock.validator secret tokenStr with
      | .error _ => c.AbortWithStatusJSON 401 ⟨false, "Invalid token", some "TOKEN_INVALID"⟩
      | .ok claims =>
        let expired :=
          match claims "exp" with
          | some (.num v) => decide (Unix clock.handler > v)
          | _ => false
        if expired then
          c.AbortWithStatusJSON 401 ⟨false, "Token expired", some "TOKEN_EXPIRED"⟩
        else
          let uid := match claims "user_id" with
            | some (.str s) => s
            | _ => ""
          if uid = "" then
            c.AbortWithStatusJSON 401 ⟨false, "Token missing user", some "TOKEN_INVALID"⟩
          else
            (c.Set "user_id" uid).Next
  | _ => c.AbortWithStatusJSON 401 ⟨false, "Missing token", some "TOKEN_INVALID"⟩

/-! ## handlers/auth.go: tokens -/

/-- Process configuration (`config.Config`), the field the handlers read. -/
structure Config where
  JWTSecret : String

/-- The claims `signToken` builds: user_id and exp = now + 24h in Unix seconds. -/
def signTokenClaims (now : Time) (userID : String) : MapClaims :=
  (GoMap.empty.set "user_id" (.str userID)).set "exp" (.num (Unix (now + hours24)))

/-- Go `AuthHandler.signToken`, called at the instant `now`. -/
def AuthHandler.signToken (lib : Lib) (cfg : Config) (now : Time) (userID : String) : String :=
  SignedString lib cfg.JWTSecret (signTokenClaims now userID)

/-! ## models/models.go and the store -/

/-- Go `models.User`. -/
structure User where
  ID : UUID
  Name : String
  Email : String
  PasswordHash : String
  CreatedAt : Time
  UpdatedAt : Time
  deriving DecidableEq, Repr

/-- Go `models.Category`. -/
structure Category where
  ID : UUID
  UserID : UUID
  Name : String
  Color : Option String
  CreatedAt : Time
  UpdatedAt : Time
  deriving DecidableEq, Repr

/-- Go `models.Note`; `DeletedAt` is the soft-delete marker. -/
structure Note where
  ID : UUID
  UserID : UUID
  Title : String
  Content : String
  Category : Option String
  Tags : List String
  Archived : Bool
  CreatedAt : Time
  UpdatedAt : Time
  DeletedAt : Option Time
  deriving DecidableEq, Repr

/-- The tables behind `*gorm.DB`, rows in insertion order.  Primary keys and
the unique index on `users.email` are enforced by the create operations, and
so are the column sizes of a new note. -/
structure DB where
  users : List User
  categories : List Category
  notes : List Note
  deriving DecidableEq, Repr

/-- gorm `db.Where("email = ?", email).First(&user)`: the row, or none for
`ErrRecordNotFound`. -/
def DB.firstUserByEmail (db : DB) (email : String) : Option User :=
  db.users.find? (fun u => u.Email == email)

/-- gorm `db.Create(&user)`: stamps the timestamps; fails on a duplicate
primary key or a duplicate email. -/
def DB.createUser (db : DB) (now : Time) (u : User) : Option DB :=
  if db.users.any (fun r => r.ID == u.ID || r.Email == u.Email) then none
  else some { db with users := db.users ++ [{ u with CreatedAt := now, UpdatedAt := now }] }

/-- The row gorm writes for a note: timestamps stamped with the current time. -/
def Note.stamped (now : Time) (n : Note) : Note :=
  { n with CreatedAt := now, UpdatedAt := now }

/-- The sizes of the columns of `models.Note`: `title` holds 200 characters
(`size:200`), `category` 50 characters (`size:50`) and `content`, a MySQL TEXT,
65535 bytes. -/
def Note.fits (n : Note) : Bool :=
  decide (n.Title.length ≤ 200) && decide ((n.Category.getD "").length ≤ 50) &&
  decide (n.Content.utf8ByteSize ≤ 65535)

/-- gorm `db.Create(&note)`: fails on a duplicate primary key and on a value
that is over the size of its column, which MySQL refuses in its default
strict mode (the connection string of `db.Init` sets no other mode). -/
def DB.createNote (db : DB) (now : Time) (n : Note) : Option DB :=
  if db.notes.any (fun r => r.ID == n.ID) || !n.fits then none
  else some { db with notes := db.notes ++ [n.stamped now] }

/-- The order requested by `Order("updated_at desc")` on notes. -/
def Note.newerEq (a b : Note) : Prop := b.UpdatedAt ≤ a.UpdatedAt

instance : DecidableRel Note.newerEq := fun a b => inferInstanceAs (Decidable (b.UpdatedAt ≤ a.UpdatedAt))

/-- The order requested by `Order("updated_at desc")` on categories. -/
def Category.newerEq (a b : Category) : Prop := b.UpdatedAt ≤ a.UpdatedAt

instance : DecidableRel Category.newerEq := fun a b => inferInstanceAs (Decidable (b.UpdatedAt ≤ a.UpdatedAt))

/-- gorm `db.Where("user_id = ?", userID).Order("updated_at desc").Limit(100).Find(&notes)`;
the soft-delete scope of `models.Note` hides rows with `deleted_at` set.
Rows with equal `updated_at` come in insertion order. -/
def DB.recentNotes (db : DB) (userID : String) : List Note :=
  ((db.notes.filter (fun n => n.UserID == userID && n.DeletedAt.isNone)).insertionSort
    Note.newerEq).take 100

/-- gorm `db.Where("user_id = ?", userID).Order("updated_at desc").Limit(100).Find(&cats)`. -/
def DB.recentCategories (db : DB) (userID : String) : List Category :=
  ((db.categories.filter (fun c => c.UserID == userID)).insertionSort
    Category.newerEq).take 100

/-- gorm `db.Where("user_id = ? AND id = ?", userID, id).First(&note)`. -/
def DB.firstNote (db : DB) (userID id : String) : Option Note :=
  db.notes.find? (fun n => n.UserID == userID && n.ID == id && n.DeletedAt.isNone)

/-! ## handlers/auth.go: Register and Login -/

/-- Go `registerReq`, as decoded by `ShouldBindJSON` (absent fields are ""). -/
structure registerReq where
  Email : String
  Password : String
  Name : String
  deriving DecidableEq, Repr

/-- Go `loginReq`. -/
structure loginReq where
  Email : String
  Password : String
  deriving DecidableEq, Repr

/-- Validator `h.v.Struct(req)` for `registerReq`: email `required,email`,
password `required,min=6`, name `required,max=100` (lengths in runes). -/
def registerReq.Struct (lib : Lib) (r : registerReq) : Bool :=
  (r.Email != "" && lib.isEmail r.Email) &&
  (r.Password != "" && decide (6 ≤ r.Password.length)) &&
  (r.Name != "" && decide (r.Name.length ≤ 100))

/-- Validator `h.v.Struct(req)` for `loginReq`: email `required,email`,
password `required`. -/
def loginReq.Struct (lib : Lib) (r : loginReq) : Bool :=
  (r.Email != "" && lib.isEmail r.Email) && r.Password != ""

/-- The `user` object of the auth responses. -/
structure UserView where
  id : UUID
  email : String
  name : String
  created_at : Option Time
  deriving DecidableEq, Repr

/-- The JSON responses of Register and Login. -/
inductive AuthResponse where
  | fail (status : Nat) (body : ErrorBody)
  | ok (status : Nat) (message : String) (user : UserView) (token : String)
  deriving DecidableEq, Repr

/-- Go `AuthHandler.Register`.  `body` is none when `ShouldBindJSON` fails;
`newID` is the value of `uuid.New()`, `dbNow` the time gorm stamps and `now`
the time `signToken` reads. -/
def AuthHandler.Register (lib : Lib) (cfg : Config) (newID : UUID) (dbNow now : Time) (db : DB)
    (body : Option registerReq) : DB × AuthResponse :=
  match body with
  | none => (db, .fail 400 ⟨false, "Invalid request", some "VALIDATION_ERROR"⟩)
  | some req =>
    if !req.Struct lib then
      (db, .fail 400 ⟨false, "Validation failed", some "VALIDATION_ERROR"⟩)
    else
      match db.firstUserByEmail req.Email with
      | some _ => (db, .fail 400 ⟨false, "Email already exists", some "EMAIL_EXISTS"⟩)
      | none =>
        let hash := lib.GenerateFromPassword req.Password
        let user : User := ⟨newID, req.Name, req.Email, hash, 0, 0⟩
        match db.createUser dbNow user with
        | none => (db, .fail 500 ⟨false, "Failed to create user", none⟩)
        | some db1 =>
          let token := AuthHandler.signToken lib cfg now user.ID
          (db1, .ok 201 "User registered successfully"
            ⟨user.ID, user.Email, user.Name, some dbNow⟩ token)

/-- Go `AuthHandler.Login`; the store is only read. -/
def AuthHandler.Login (lib : Lib) (cfg : Config) (now : Time) (db : DB) (body : Option loginReq) :
    AuthResponse :=
  match body with
  | none => .fail 400 ⟨false, "Invalid request", some "VALIDATION_ERROR"⟩
  | some req =>
    if !req.Struct lib then
      .fail 400 ⟨false, "Validation failed", some "VALIDATION_ERROR"⟩
    else
      match db.firstUserByEmail req.Email with
      | none => .fail 401 ⟨false, "Invalid credentials", some "INVALID_CREDENTIALS"⟩
      | some user =>
        if !lib.CompareHashAndPassword user.PasswordHash req.Password then
          .fail 401 ⟨false, "Invalid credentials", some "INVALID_CREDENTIALS"⟩
        else
          let token := AuthHandler.signToken lib cfg now user.ID
          .ok 200 "Login successful" ⟨user.ID, user.Email, user.Name, none⟩ token

/-! ## handlers/sync.go -/

/-- The response of `SyncHandler.Pull`. -/
structure PullResponse where
  status : Nat
  success : Bool
  notes_created : List Note
  notes_updated : List Note
  notes_deleted : List String
  categories_created : List Category
  categories_updated : List Category
  categories_deleted : List String
  sync_timestamp : Time
  deriving DecidableEq, Repr

/-- Go `SyncHandler.Pull` for a context whose `user_id` is `userID`. -/
def SyncHandler.Pull (now : Time) (db : DB) (userID : String) : PullResponse :=
  let notes := db.recentNotes userID
  let cats := db.recentCategories userID
  ⟨200, true, notes, [], [], cats, [], [], now⟩

/-- The body of SyncHandler.Push, `map[string]map[string][]map[string]interface{}`. -/
abbrev PushBody := GoMap (GoMap (List (GoMap JsonVal)))

/-- The success response of `SyncHandler.Push`. -/
structure PushData where
  status : Nat
  success : Bool
  message : String
  conflicts : List String
  created_ids_notes : GoMap String
  created_ids_categories : GoMap String
  sync_timestamp : Time

/-- What a Push request ends in: a panic raised by `uuid.MustParse` (turned
into a 500 by `gin.Recovery`), an error response, or the success response. -/
inductive PushResponse where
  | panicked
  | fail (status : Nat) (body : ErrorBody)
  | ok (data : PushData)

/-- Go type assertion `v.(string)` with the result discarded on failure. -/
def asString (v : Option JsonVal) : String :=
  match v with
  | some (.str s) => s
  | _ => ""

/-- The loop state of Push: the store, `createdNotes`, and the number of
`uuid.New()` calls made so far. -/
structure PushState where
  db : DB
  createdNotes : GoMap String
  calls : Nat

/-- One iteration of the loop over `notesCreate`; none when `uuid.MustParse`
panics.  The error of `h.db.Create(&m)` is dropped, as in the source. -/
def pushEntry (lib : Lib) (uuidNew : Nat → UUID) (clock : Nat → Time) (userID : String)
    (st : PushState) (n : GoMap JsonVal) : Option PushState :=
  let id := uuidNew st.calls
  let title := asString (n "title")
  let content := asString (n "content")
  match lib.uuidParse userID with
  | none => none
  | some uid =>
    let m : Note := ⟨id, uid, title, content, none, [], false, 0, 0, none⟩
    let db1 := (st.db.createNote (clock st.calls) m).getD st.db
    let created :=
      match n "id" with
      | some (.str localID) =>
        if localID ≠ "" then st.createdNotes.set localID id else st.createdNotes
      | _ => st.createdNotes
    some ⟨db1, created, st.calls + 1⟩

/-- The loop `for _, n := range notesCreate`. -/
def pushLoop (lib : Lib) (uuidNew : Nat → UUID) (clock : Nat → Time) (userID : String) :
    PushState → List (GoMap JsonVal) → Option PushState
  | st, [] => some st
  | st, n :: rest =>
    match pushEntry lib uuidNew clock userID st n with
    | none => none
    | some st1 => pushLoop lib uuidNew clock userID st1 rest

/-- The entries Push iterates over: `body["notes"]["create"]`, empty when
either key is absent. -/
def notesCreate (body : PushBody) : List (GoMap JsonVal) :=
  match body "notes" with
  | none => []
  | some sect =>
    match sect "create" with
    | none => []
    | some entries => entries

/-- Go `SyncHandler.Push` for a context whose `user_id` is `userID`.  `body`
is none when `ShouldBindJSON` fails; `uuidNew k` is the value of the k-th call
of `uuid.New()`, `clock k` the time gorm stamps on the k-th created row and
`now` the time of the response. -/
def SyncHandler.Push (lib : Lib) (uuidNew : Nat → UUID) (clock : Nat → Time) (now : Time) (db : DB)
    (userID : String) (body : Option PushBody) : DB × PushResponse :=
  match body with
  | none => (db, .fail 400 ⟨false, "Invalid request", some "VALIDATION_ERROR"⟩)
  | some b =>
    match pushLoop lib uuidNew clock userID ⟨db, GoMap.empty, 0⟩ (notesCreate b) with
    | none => (db, .panicked)
    | some st =>
      (st.db, .ok ⟨200, true, "Sync completed successfully", [], st.createdNotes,
        GoMap.empty, now⟩)

/-! ## handlers/notes.go: owner-scoped lookup -/

/-- Go `NotesHandler.Get`: status and the note found for the caller. -/
def NotesHandler.Get (db : DB) (userID id : String) : Nat × Option Note :=
  match db.firstNote userID id with
  | none => (404, none)
  | some note => (200, some note)

/-! ## Go `strings` and `unicode`, continued -/

/-- Go `unicode.IsSpace`. -/
def isSpace (c : Char) : Bool :=
  c = '\t' || c = '\n' || c.toNat = 11 || c.toNat = 12 || c = '\r' || c = ' ' ||
  c.toNat = 0x85 || c.toNat = 0xA0 || c.toNat = 0x1680 ||
  (decide (0x2000 ≤ c.toNat) && decide (c.toNat ≤ 0x200A)) ||
  c.toNat = 0x2028 || c.toNat = 0x2029 || c.toNat = 0x202F || c.toNat = 0x205F ||
  c.toNat = 0x3000

/-- Go `strings.TrimSpace`: leading and trailing white space removed. -/
def TrimSpace (s : String) : String :=
  String.mk ((s.toList.dropWhile isSpace).reverse.dropWhile isSpace).reverse

/-- Splits a character list at every occurrence of `sep`. -/
def splitAll (sep : Char) : List Char → List (List Char)
  | [] => [[]]
  | c :: cs =>
    if c = sep then [] :: splitAll sep cs
    else match splitAll sep cs with
      | [] => [[c]]
      | p :: ps => (c :: p) :: ps

/-- Go `strings.Split(s, sep)` for a one-character separator. -/
def Split (s : String) (sep : Char) : List String := (splitAll sep s.toList).map String.mk

/-! ## handlers/notes.go -/

/-- Go `noteReq`, as decoded by `ShouldBindJSON`. -/
structure noteReq where
  Title : String
  Content : String
  Category : Option String
  Tags : List String
  deriving DecidableEq, Repr

/-- The JSON responses of the handlers that answer with at most one note:
an error object, with the `details` entry when there is one, or a success
object with its `message` and `data.note`. -/
inductive NoteResponse where
  | fail (status : Nat) (body : ErrorBody) (details : Option (String × String))
  | ok (status : Nat) (message : Option String) (note : Option Note)
  deriving DecidableEq, Repr

/-- The zero value `models.Note{}`. -/
def Note.zero : Note :=
  ⟨"00000000-0000-0000-0000-000000000000", "00000000-0000-0000-0000-000000000000", "", "",
    none, [], false, 0, 0, none⟩

/-- gorm `db.Save(&note)`: rewrites the live row that has the note's primary
key and stamps `updated_at`. -/
def DB.saveNote (db : DB) (now : Time) (n : Note) : DB :=
  { db with notes := db.notes.map (fun r =>
      if r.ID == n.ID && r.DeletedAt.isNone then { n with UpdatedAt := now } else r) }

/-- gorm `db.Model(&models.Note{}).Where("user_id = ? AND id = ?", userID, id)
.Update("archived", archived)`. -/
def DB.archiveNote (db : DB) (now : Time) (userID id : String) (archived : Bool) : DB :=
  { db with notes := db.notes.map (fun r =>
      if r.UserID == userID && r.ID == id && r.DeletedAt.isNone then
        { r with Archived := archived, UpdatedAt := now }
      else r) }

/-- gorm `db.Where("user_id = ? AND id IN ?", userID, ids).Delete(&models.Note{})`:
the soft delete of the caller's live rows with one of the identifiers. -/
def DB.deleteNotes (db : DB) (now : Time) (userID : String) (ids : List String) : DB :=
  { db with notes := db.notes.map (fun r =>
      if r.UserID == userID && ids.contains r.ID && r.DeletedAt.isNone then
        { r with DeletedAt := some now }
      else r) }

/-- The `RowsAffected` of that delete. -/
def DB.deleteCount (db : DB) (userID : String) (ids : List String) : Nat :=
  (db.notes.filter (fun r =>
    r.UserID == userID && ids.contains r.ID && r.DeletedAt.isNone)).length

/-- Go `NotesHandler.Get`, the whole response. -/
def NotesHandler.GetResponse (db : DB) (userID id : String) : NoteResponse :=
  match db.firstNote userID id with
  | none => .fail 404 ⟨false, "Note not found", some "NOTE_NOT_FOUND"⟩ none
  | some note => .ok 200 none (some note)

/-- Go `NotesHandler.Create` for a context whose `user_id` is `userID`.
`body` is none when `ShouldBindJSON` fails, `newID` is the value of
`uuid.New()`, `dbNow` the time gorm stamps and `dbErr` the text of the store's
error, should the insert fail. -/
def NotesHandler.Create (lib : Lib) (newID : UUID) (dbNow : Time) (dbErr : String) (db : DB)
    (userID : String) (body : Option noteReq) : DB × NoteResponse :=
  if TrimSpace userID = "" then
    (db, .fail 401 ⟨false, "Missing user", some "TOKEN_INVALID"⟩ none)
  else
    match lib.uuidParse userID with
    | none => (db, .fail 401 ⟨false, "Invalid user id", some "TOKEN_INVALID"⟩ none)
    | some uid =>
      match body with
      | none =>
        (db, .fail 400 ⟨false, "Validation failed", some "VALIDATION_ERROR"⟩
          (some ("title", "Title cannot be empty")))
      | some req =>
        if TrimSpace req.Title = "" then
          (db, .fail 400 ⟨false, "Validation failed", some "VALIDATION_ERROR"⟩
            (some ("title", "Title cannot be empty")))
        else
          let note : Note :=
            ⟨newID, uid, req.Title, req.Content, req.Category, req.Tags, false, 0, 0, none⟩
          match db.createNote dbNow note with
          | none => (db, .fail 500 ⟨false, "Failed to create note: " ++ dbErr, none⟩ none)
          | some db1 =>
            (db1, .ok 201 (some "Note created successfully") (some (note.stamped dbNow)))

/-- Go `NotesHandler.Update` of the note `id`; `dbNow` is the time gorm stamps
on the saved row. -/
def NotesHandler.Update (dbNow : Time) (db : DB) (userID id : String)
    (body : Option noteReq) : DB × NoteResponse :=
  if TrimSpace userID = "" then
    (db, .fail 401 ⟨false, "Missing user", some "TOKEN_INVALID"⟩ none)
  else
    match db.firstNote userID id with
    | none => (db, .fail 404 ⟨false, "Note not found", some "NOTE_NOT_FOUND"⟩ none)
    | some note =>
      match body with
      | none =>
        (db, .fail 400 ⟨false, "Validation failed", some "VALIDATION_ERROR"⟩
          (some ("title", "Title cannot be empty")))
      | some req =>
        if TrimSpace req.Title = "" then
          (db, .fail 400 ⟨false, "Validation failed", some "VALIDATION_ERROR"⟩
            (some ("title", "Title cannot be empty")))
        else
          let note1 : Note :=
            { note with Title := req.Title, Content := req.Content, Category := req.Category,
                        Tags := req.Tags }
          (db.saveNote dbNow note1,
            .ok 200 (some "Note updated successfully") (some { note1 with UpdatedAt := dbNow }))

/-- Go `NotesHandler.Delete` of the note `id`. -/
def NotesHandler.Delete (dbNow : Time) (db : DB) (userID id : String) : DB × NoteResponse :=
  (db.deleteNotes dbNow userID [id], .ok 200 (some "Note deleted successfully") none)

/-- Go `NotesHandler.Archive` of the note `id`; `body` is the decoded
`archived` flag, none when `ShouldBindJSON` fails.  The error of the final
lookup is dropped, as in the source, which leaves the zero note. -/
def NotesHandler.Archive (dbNow : Time) (db : DB) (userID id : String) (body : Option Bool) :
    DB × NoteResponse :=
  match body with
  | none => (db, .fail 400 ⟨false, "Invalid request", none⟩ none)
  | some archived =>
    let db1 := db.archiveNote dbNow userID id archived
    let note := (db1.firstNote userID id).getD Note.zero
    (db1, .ok 200 (some "Note archived successfully") (some note))

/-- The response of `NotesHandler.BulkDelete`. -/
inductive BulkDeleteResponse where
  | fail (status : Nat) (body : ErrorBody)
  | ok (status : Nat) (message : String) (deleted_count : Nat) (failed_ids : List String)
  deriving DecidableEq, Repr

/-- Go `NotesHandler.BulkDelete`; `body` is the decoded `note_ids`, none when
`ShouldBindJSON` fails. -/
def NotesHandler.BulkDelete (dbNow : Time) (db : DB) (userID : String)
    (body : Option (List String)) : DB × BulkDeleteResponse :=
  match body with
  | none => (db, .fail 400 ⟨false, "Invalid request", some "VALIDATION_ERROR"⟩)
  | some ids =>
    if ids.length = 0 then (db, .fail 400 ⟨false, "Invalid request", some "VALIDATION_ERROR"⟩)
    else
      (db.deleteNotes dbNow userID ids,
        .ok 200 "bulk delete" (db.deleteCount userID ids) [])

/-- Go `int64` wrap-around: the value of an exact integer result as a 64-bit
two's-complement number. -/
def wrap64 (x : Int) : Int := (x + 2 ^ 63) % 2 ^ 64 - 2 ^ 63

/-- Go integer division on `int64`: truncated toward zero; none for the
run-time panic on a zero divisor. -/
def div64 (a b : Int) : Option Int :=
  if b = 0 then none else some (wrap64 (Int.tdiv a b))

/-- gorm `Limit(limit).Offset(offset)` on rows already ordered: the clause
builder writes LIMIT for a limit of 0 or more and OFFSET for an offset above 0;
MySQL refuses OFFSET without LIMIT, which is the none result. -/
def limitOffset {α : Type} (limit offset : Int) (rows : List α) : Option (List α) :=
  if 0 ≤ limit then
    some ((rows.drop (if 0 < offset then offset.toNat else 0)).take limit.toNat)
  else if 0 < offset then none
  else some rows

/-- The query parameters `NotesHandler.List` reads with `c.Query`, each the
empty string when absent. -/
structure ListQuery where
  search : String
  archived : String
  page : String
  limit : String
  deriving DecidableEq, Repr

/-- What a List request ends in: a panic on the division in `total_pages`
(turned into a 500 by `gin.Recovery`), the 500 of a failed query, or the
success response with its `pagination` object. -/
inductive ListResponse where
  | panicked
  | fail (status : Nat) (body : ErrorBody)
  | ok (notes : List Note) (current_page total_pages total_items items_per_page : Int)
  deriving DecidableEq, Repr

/-- The rows `q` selects in `NotesHandler.List`, before paging.  `like text s`
stands for the store's `LOWER(text) LIKE ?` with the pattern built from
`strings.ToLower(s)` between two percent signs.  gorm joins the `Where` calls
with AND and puts the one that contains OR in brackets; the soft-delete scope
of `models.Note` adds the last condition. -/
def listRows (like : String → String → Bool) (db : DB) (userID : String) (query : ListQuery) :
    List Note :=
  db.notes.filter (fun n =>
    n.UserID == userID &&
    (query.search == "" || (like n.Title query.search || like n.Content query.search)) &&
    (if query.archived = "true" then n.Archived else !n.Archived) &&
    n.DeletedAt.isNone)

/-- Go `NotesHandler.List` for a context whose `user_id` is `userID`.
`Sscanf v` is the integer `fmt.Sscanf(v, "%d", &x)` stores, none when it
stores nothing. -/
def NotesHandler.List (like : String → String → Bool) (Sscanf : String → Option Int) (db : DB)
    (userID : String) (query : ListQuery) : ListResponse :=
  let q := listRows like db userID query
  let total : Int := (q.length : Int)
  let page : Int := if query.page ≠ "" then (Sscanf query.page).getD 1 else 1
  let limit : Int := if query.limit ≠ "" then (Sscanf query.limit).getD 20 else 20
  let offset := wrap64 ((page - 1) * limit)
  match limitOffset limit offset (q.insertionSort Note.newerEq) with
  | none => .fail 500 ⟨false, "Failed to fetch notes", none⟩
  | some notes =>
    match div64 (wrap64 (wrap64 (total + limit) - 1)) limit with
    | none => .panicked
    | some totalPages => .ok notes page totalPages total limit

/-! ## handlers/search.go -/

/-- One entry of `results` in the search response; the constant
`relevance_score` and the empty `matches` object are left out. -/
structure SearchHit where
  id : UUID
  title : String
  content : String
  category : Option String
  tags : List String
  created_at : Time
  deriving DecidableEq, Repr

/-- The response of `SearchHandler.Search`. -/
inductive SearchResponse where
  | fail (status : Nat) (body : ErrorBody)
  | ok (results : List SearchHit) (total_results : Nat) (search_time_ms : Nat)
  deriving DecidableEq, Repr

/-- The rows `SearchHandler.Search` finds: the caller's live notes matching in
the chosen scope, newest first, at most 50 (`Where` calls joined with AND, the
one that contains OR in brackets). -/
def searchRows (like : String → String → Bool) (db : DB) (userID q scope : String) :
    List Note :=
  ((db.notes.filter (fun n =>
    n.UserID == userID &&
    (if scope = "title" then like n.Title q
      else if scope = "content" then like n.Content q
      else (like n.Title q || like n.Content q)) &&
    n.DeletedAt.isNone)).insertionSort Note.newerEq).take 50

/-- Go `SearchHandler.Search` for a context whose `user_id` is `userID`; `q`
is `c.Query("q")`, `scope` the `in` parameter when present, `now` the clock
reading used for `search_time_ms`. -/
def SearchHandler.Search (like : String → String → Bool) (now : Time) (db : DB)
    (userID q : String) (scope : Option String) : SearchResponse :=
  if q = "" then .fail 400 ⟨false, "Missing q", some "VALIDATION_ERROR"⟩
  else
    let notes := searchRows like db userID q (ToLower (scope.getD "both"))
    let results := notes.map (fun n =>
      (⟨n.ID, n.Title, n.Content, n.Category, n.Tags, n.CreatedAt⟩ : SearchHit))
    .ok results results.length (5 + now % second % 10)

/-! ## middleware/cors.go -/

/-- The loop of `CORS` over the configured entries: the value of `allow` when
it ends. -/
def pickAllow (origin : String) : List String → String
  | [] => "*"
  | a :: rest =>
    if a = "*" ∨ TrimSpace a = origin then TrimSpace a else pickAllow origin rest

/-- What `CORS` leaves behind: the four response headers, the status written
for OPTIONS, and whether the chain was aborted or continued. -/
structure CorsResult where
  allowOrigin : String
  allowHeaders : String
  allowMethods : String
  allowCredentials : String
  status : Option Nat
  aborted : Bool
  nextRan : Bool
  deriving DecidableEq, Repr

/-- Go `CORS(allowOrigins)` applied to a request with the given method and
Origin header (the empty string when absent). -/
def CORS (allowOrigins : String) (method origin : String) : CorsResult :=
  let allowed := Split allowOrigins ','
  let allow := pickAllow origin allowed
  if method = "OPTIONS" then
    ⟨allow, "Authorization, Content-Type", "GET, POST, PUT, DELETE, OPTIONS", "true",
      some 204, true, false⟩
  else
    ⟨allow, "Authorization, Content-Type", "GET, POST, PUT, DELETE, OPTIONS", "true",
      none, false, true⟩

/-! ## handlers/categories.go: Create -/

/-- Go `categoryReq`. -/
structure categoryReq where
  Name : String
  Color : Option String
  deriving DecidableEq, Repr

/-- Validator `h.v.Struct(req)` for `categoryReq`: name `required,max=50`. -/
def categoryReq.Struct (r : categoryReq) : Bool :=
  r.Name != "" && decide (r.Name.length ≤ 50)

/-- gorm `db.Create(&cat)`: fails on a duplicate primary key. -/
def DB.createCategory (db : DB) (now : Time) (c : Category) : Option DB :=
  if db.categories.any (fun r => r.ID == c.ID) then none
  else some { db with
    categories := db.categories ++ [{ c with CreatedAt := now, UpdatedAt := now }] }

/-- What a category Create request ends in: a panic raised by
`uuid.MustParse`, an error response, or the 201 response. -/
inductive CategoryResponse where
  | panicked
  | fail (status : Nat) (body : ErrorBody)
  | ok (status : Nat) (message : String) (category : Category)
  deriving DecidableEq, Repr

/-- Go `CategoriesHandler.Create` for a context whose `user_id` is `userID`. -/
def CategoriesHandler.Create (lib : Lib) (newID : UUID) (dbNow : Time) (db : DB)
    (userID : String) (body : Option categoryReq) : DB × CategoryResponse :=
  match body with
  | none => (db, .fail 400 ⟨false, "Validation failed", some "VALIDATION_ERROR"⟩)
  | some req =>
    if !req.Struct then (db, .fail 400 ⟨false, "Validation failed", some "VALIDATION_ERROR"⟩)
    else
      match lib.uuidParse userID with
      | none => (db, .panicked)
      | some uid =>
        let cat : Category := ⟨newID, uid, req.Name, req.Color, 0, 0⟩
        match db.createCategory dbNow cat with
        | none => (db, .fail 500 ⟨false, "Failed to create category", none⟩)
        | some db1 =>
          (db1, .ok 201 "Category created successfully"
            { cat with CreatedAt := dbNow, UpdatedAt := dbNow })

/-! ## Notions used in the statements -/

/-- The instant denoted by the exp claim of a token issued at `issued`:
`issued + 24h`, cut down to a whole second. -/
def expiryOf (issued : Time) : Time := (issued + hours24) / second * second

/-- The library decodes the HS256 token it has issued for `claims` under
`key` back into its parts. -/
def Lib.Decodes (lib : Lib) (key : String) (claims : MapClaims) : Prop :=
  ∃ raw, lib.parseUnverified (SignedString lib key claims) = some raw ∧
    raw.alg = "HS256" ∧ raw.claims = claims ∧
    raw.signingInput = lib.signingString claims ∧
    raw.signature = lib.hmacSHA256 key (lib.signingString claims)

/-- The signature check `jwt.ParseWithClaims` makes for a decoded token under
`key`: the token's `Method.Verify`. -/
def signatureVerifies (lib : Lib) (key : String) (raw : RawToken) : Bool :=
  if raw.alg = "HS256" then raw.signature == lib.hmacSHA256 key raw.signingInput
  else lib.verifyOther raw.alg key raw.signingInput raw.signature

/-- The HTTP status of an auth response. -/
def AuthResponse.status : AuthResponse → Nat
  | .fail status _ => status
  | .ok status _ _ _ => status

/-- The `code` field of an auth response, absent on success. -/
def AuthResponse.code : AuthResponse → Option String
  | .fail _ body => body.code
  | .ok _ _ _ _ => none

/-- The `data.token` field of an auth response, absent on failure. -/
def AuthResponse.token : AuthResponse → Option String
  | .fail _ _ => none
  | .ok _ _ _ token => some token

/-- The HTTP status a Push request ends with; `gin.Recovery` (router.go)
answers a panic with 500. -/
def PushResponse.status : PushResponse → Nat
  | .panicked => 500
  | .fail status _ => status
  | .ok data => data.status

/-- The client-local identifier of an entry: `n["id"].(string)` when it is a
non-empty string. -/
def localID (n : GoMap JsonVal) : Option String :=
  match n "id" with
  | some (.str l) => if l ≠ "" then some l else none
  | _ => none

/-- The row Push stores for the entry it handles after `k` earlier ones, for a
caller whose identifier parsed to `uid`. -/
def insertedNote (uid : UUID) (uuidNew : Nat → UUID) (clock : Nat → Time) (k : Nat)
    (n : GoMap JsonVal) : Note :=
  ⟨uuidNew k, uid, asString (n "title"), asString (n "content"), none, [], false,
    clock k, clock k, none⟩

/-- The rows Push stores for a list of entries, the first of them handled
after `k` earlier ones. -/
def insertedNotes (uid : UUID) (uuidNew : Nat → UUID) (clock : Nat → Time) :
    Nat → List (GoMap JsonVal) → List Note
  | _, [] => []
  | k, n :: rest =>
    insertedNote uid uuidNew clock k n :: insertedNotes uid uuidNew clock (k + 1) rest

/-- The map `createdNotes` after a list of entries, the first of them handled
after `k` earlier ones. -/
def createdAfter (uuidNew : Nat → UUID) :
    Nat → GoMap String → List (GoMap JsonVal) → GoMap String
  | _, cm, [] => cm
  | k, cm, n :: rest =>
    createdAfter uuidNew (k + 1)
      (match localID n with
        | some l => cm.set l (uuidNew k)
        | none => cm) rest

/-- Whether the title and content Push reads from an entry are within the
sizes of their columns. -/
def entryFits (n : GoMap JsonVal) : Bool :=
  decide ((asString (n "title")).length ≤ 200) &&
  decide ((asString (n "content")).utf8ByteSize ≤ 65535)

/-- What `uuid.New()` promises: the first `count` identifiers it returns
during a request are not in use by a stored note and differ from each other. -/
def FreshIDs (uuidNew : Nat → UUID) (db : DB) (count : Nat) : Prop :=
  (∀ i < count, ∀ r ∈ db.notes, r.ID ≠ uuidNew i) ∧
  (∀ j < count, ∀ i < j, uuidNew i ≠ uuidNew j)

/-- The store before anything was written. -/
def emptyDB : DB := ⟨[], [], []⟩

/-- The store states reached from the empty store by the operations that
write notes: Notes.Create, Notes.Update, Notes.Archive and, when `withPush`
is set, Sync.Push. -/
inductive Reachable (lib : Lib) (withPush : Bool) : DB → Prop where
  | empty : Reachable lib withPush emptyDB
  | create (db : DB) (newID : UUID) (dbNow : Time) (dbErr userID : String)
      (body : Option noteReq) :
      Reachable lib withPush db →
      Reachable lib withPush (NotesHandler.Create lib newID dbNow dbErr db userID body).1
  | update (db : DB) (dbNow : Time) (userID id : String) (body : Option noteReq) :
      Reachable lib withPush db →
      Reachable lib withPush (NotesHandler.Update dbNow db userID id body).1
  | archive (db : DB) (dbNow : Time) (userID id : String) (body : Option Bool) :
      Reachable lib withPush db →
      Reachable lib withPush (NotesHandler.Archive dbNow db userID id body).1
  | push (db : DB) (uuidNew : Nat → UUID) (clock : Nat → Time) (now : Time) (userID : String)
      (body : Option PushBody) :
      withPush = true → Reachable lib withPush db →
      Reachable lib withPush (SyncHandler.Push lib uuidNew clock now db userID body).1

/-- The primary key of the notes table: no two rows share an identifier. -/
def DB.NoteKeysUnique (db : DB) : Prop := (db.notes.map (fun r => r.ID)).Nodup

/-! ## A small executable instance of the library interface

Used to run the handlers on concrete requests.  Its tokens carry the two
claims `signToken` writes, in the form `HS256.<user_id>:<exp>.<signature>`. -/

/-- Decimal digits to a number. -/
def digitsToNat (cs : List Char) : Nat :=
  cs.foldl (fun acc c => acc * 10 + (c.toNat - 48)) 0

/-- Sample encoder of header and claims. -/
def demoSigningString (claims : MapClaims) : String :=
  let exp := match claims "exp" with
    | some (.num n) => n.toNat
    | _ => 0
  "HS256." ++ asString (claims "user_id") ++ ":" ++ toString exp

/-- Sample decoder, the inverse of the sample encoder. -/
def demoParseUnverified (tok : String) : Option RawToken :=
  match cut '.' tok.toList with
  | none => none
  | some (alg, rest) =>
    match cut '.' rest with
    | none => none
    | some (payload, sig) =>
      match cut ':' payload with
      | none => none
      | some (uid, exp) =>
        some ⟨String.mk alg,
          (GoMap.empty.set "user_id" (.str (String.mk uid))).set "exp"
            (.num (digitsToNat exp)),
          String.mk (alg ++ '.' :: payload), String.mk sig⟩

/-- Sample of `uuid.Parse` for the canonical spelling only: 36 characters,
dashes at positions 8, 13, 18 and 23, lower-case hexadecimal digits elsewhere.
The other spellings `uuid.Parse` reads (upper case, braces, the urn prefix,
32 digits without dashes) are turned down by this sample. -/
def demoUuidParse (s : String) : Option UUID :=
  let cs := s.toList
  let dashOk := cs.get? 8 = some '-' && cs.get? 13 = some '-' &&
    cs.get? 18 = some '-' && cs.get? 23 = some '-'
  let hexOk := cs.all (fun c => c = '-' || c.isDigit || ('a' ≤ c && c ≤ 'f'))
  if cs.length = 36 && dashOk && hexOk && (cs.filter (fun c => c = '-')).length = 4 then some s
  else none

/-- The sample library. -/
def demoLib : Lib where
  signingString := demoSigningString
  hmacSHA256 := fun key msg => key ++ "#" ++ msg
  parseUnverified := demoParseUnverified
  verifyOther := fun _ _ _ _ => false
  isEmail := fun s => s.toList.contains '@'
  GenerateFromPassword := fun pw => "$2a$" ++ pw
  CompareHashAndPassword := fun hash pw => hash == "$2a$" ++ pw
  uuidParse := demoUuidParse

/-- Sample values of `uuid.New()`. -/
def demoUuidNew (k : Nat) : UUID :=
  if k = 0 then "1c1c1c1c-0000-4000-8000-000000000001"
  else if k = 1 then "1c1c1c1c-0000-4000-8000-000000000002"
  else String.mk (List.replicate k 'f')

/-- The headers of a request that carries only Authorization. -/
def authHeader (value : String) : GoMap String := GoMap.empty.set "Authorization" value

/-- A key without the NUL characters at its end. -/
def stripNul (key : String) : String :=
  String.mk (key.toList.reverse.dropWhile (fun c => c.toNat = 0)).reverse

/-- The sample library with a MAC that, like HMAC-SHA256, fills a short key up
with zero bytes: a key and the same key followed by NUL sign identically. -/
def zeroPadLib : Lib :=
  { demoLib with hmacSHA256 := fun key msg => stripNul key ++ "#" ++ msg }

/-- A sample user identifier. -/
def aliceID : UUID := "0a0a0a0a-0000-4000-8000-000000000001"

/-- A second sample identifier. -/
def bobID : UUID := "0b0b0b0b-0000-4000-8000-000000000002"

/-- A store holding one registered user, alice. -/
def aliceDB : DB :=
  ⟨[⟨aliceID, "A", "a@x.com", "$2a$secret1", 5, 5⟩], [], []⟩

/-- A store with notes of two owners: two live notes and a soft-deleted one of
alice, one note of bob. -/
def twoOwnersDB : DB :=
  ⟨[], [],
    [⟨"n1", aliceID, "old", "", none, [], false, 1, 10, none⟩,
      ⟨"n2", bobID, "bob", "", none, [], false, 2, 30, none⟩,
      ⟨"n3", aliceID, "gone", "", none, [], false, 3, 40, some 41⟩,
      ⟨"n4", aliceID, "new", "", none, [], false, 4, 20, none⟩]⟩

/-- A sample Push entry with a client-local identifier. -/
def localEntry (l title content : String) : GoMap JsonVal :=
  ((GoMap.empty.set "id" (.str l)).set "title" (.str title)).set "content" (.str content)

/-- A title of 201 characters, one more than the `title` column holds. -/
def longTitle : String := String.mk (List.replicate 201 'x')

/-- A sample Push entry without a title. -/
def untitledEntry (l content : String) : GoMap JsonVal :=
  (GoMap.empty.set "id" (.str l)).set "content" (.str content)

/-- A sample Push body: the given entries under notes.create. -/
def createBody (entries : List (GoMap JsonVal)) : PushBody :=
  GoMap.empty.set "notes" (GoMap.empty.set "create" entries)

/-- Sample of `fmt.Sscanf(v, "%d", &x)`: blanks are skipped, then an optional
sign and the leading decimal digits are read; nothing is stored when there is
no digit or the number does not fit `int64`. -/
def demoSscanf (v : String) : Option Int :=
  let cs := v.toList.dropWhile (fun c => c = ' ')
  let neg := cs.head? = some '-'
  let body := if cs.head? = some '-' ∨ cs.head? = some '+' then cs.drop 1 else cs
  let digits := body.takeWhile Char.isDigit
  if digits = [] then none
  else
    let n : Int := if neg then -(digitsToNat digits : Int) else (digitsToNat digits : Int)
    if -(2 ^ 63 : Int) ≤ n ∧ n < 2 ^ 63 then some n else none

/-- Whether `needle` occurs in `text` as a run of consecutive characters. -/
def occursIn (needle : List Char) : List Char → Bool
  | [] => needle.isEmpty
  | c :: cs => needle.isPrefixOf (c :: cs) || occursIn needle cs

/-- Sample of the store's `LOWER(text) LIKE` test for a needle without
wildcard characters: containment up to ASCII letter case. -/
def demoLike (text s : String) : Bool :=
  occursIn (ToLower s).toList (ToLower text).toList

/-! # Properties -/

/-! ## Auxiliary facts -/

theorem cut_sound (sep : Char) : ∀ (l a b : List Char), cut sep l = some (a, b) → l = a ++ sep :: b
  | [], a, b, h => by simp [cut] at h
  | c :: cs, a, b, h => by
    unfold cut at h
    split at h
    · rename_i hc
      cases h
      simp [hc]
    · split at h
      · cases h
      · rename_i a1 b1 hrec
        simp only [Option.some.injEq, Prod.mk.injEq] at h
        obtain ⟨rfl, rfl⟩ := h
        have := cut_sound sep cs a1 b1 hrec
        simp [this]

theorem SplitN2_bearer (tok : String) : SplitN2 ("Bearer " ++ tok) = ["Bearer", tok] := by
  have h : ("Bearer " ++ tok).toList = 'B' :: 'e' :: 'a' :: 'r' :: 'e' :: 'r' :: ' ' :: tok.toList := rfl
  simp [SplitN2, h, cut]

theorem ToLower_Bearer : ToLower "Bearer" = "bearer" := by decide

theorem JWTAuth_bearer (lib : Lib) (secret : String) (clock : Clock) (header : GoMap String)
    (tok : String) (h : header "Authorization" = some ("Bearer " ++ tok)) :
    JWTAuth lib secret clock (Context.request header) =
      match ParseWithClaims lib clock.validator secret tok with
      | .error _ => (Context.request header).AbortWithStatusJSON 401 ⟨false, "Invalid token", some "TOKEN_INVALID"⟩
      | .ok claims =>
        if (match claims "exp" with
          | some (.num v) => decide (Unix clock.handler > v)
          | _ => false) = true then
          (Context.request header).AbortWithStatusJSON 401 ⟨false, "Token expired", some "TOKEN_EXPIRED"⟩
        else
          if (match claims "user_id" with
            | some (.str s) => s
            | _ => "") = "" then
            (Context.request header).AbortWithStatusJSON 401 ⟨false, "Token missing user", some "TOKEN_INVALID"⟩
          else
            ((Context.request header).Set "user_id" (match claims "user_id" with
            | some (.str s) => s
            | _ => "")).Next := by
  simp only [JWTAuth, Context.GetHeader, Context.request, h, Option.getD_some, SplitN2_bearer, ToLower_Bearer]
  simp


theorem signTokenClaims_user_id (now : Time) (u : String) :
    signTokenClaims now u "user_id" = some (.str u) := by
  simp [signTokenClaims, GoMap.set]

theorem signTokenClaims_exp (now : Time) (u : String) :
    signTokenClaims now u "exp" = some (.num (Unix (now + hours24))) := by
  simp [signTokenClaims, GoMap.set]

theorem signTokenClaims_nbf (now : Time) (u : String) :
    signTokenClaims now u "nbf" = none := by
  simp [signTokenClaims, GoMap.set, GoMap.empty]

theorem Unix_expiry_pos (issued : Time) : Unix (issued + hours24) ≠ 0 := by
  simp only [Unix, hours24, second]
  unfold Time at *
  omega

theorem lt_expiry_iff (t issued : Time) :
    ((t : Int) < Unix (issued + hours24) * (second : Int)) ↔ t < expiryOf issued := by
  simp only [Unix, expiryOf]
  norm_cast

theorem ParseWithClaims_signToken (lib : Lib) (key : String) (issued now : Time) (u : String)
    (hdec : lib.Decodes key (signTokenClaims issued u)) (hnow : now < expiryOf issued) :
    ParseWithClaims lib now key (SignedString lib key (signTokenClaims issued u)) =
      .ok (signTokenClaims issued u) := by
  obtain ⟨raw, hraw, halg, hcl, hin, hsig⟩ := hdec
  have hlt := (lt_expiry_iff now issued).2 hnow
  simp [ParseWithClaims, hraw, halg, hcl, hin, hsig, Validate, verifyExpiresAt, verifyNotBefore,
    parseNumericDate, signTokenClaims_exp, signTokenClaims_nbf, Unix_expiry_pos, hlt]

theorem Register_ok_inv {lib : Lib} {cfg : Config} {newID : UUID} {dbNow now : Time}
    {db db1 : DB} {body : Option registerReq} {status : Nat} {msg : String} {view : UserView}
    {tok : String}
    (h : AuthHandler.Register lib cfg newID dbNow now db body = (db1, .ok status msg view tok)) :
    ∃ req, body = some req ∧ req.Struct lib = true ∧ db.firstUserByEmail req.Email = none ∧
      db.createUser dbNow ⟨newID, req.Name, req.Email, lib.GenerateFromPassword req.Password, 0, 0⟩
        = some db1 ∧
      status = 201 ∧ msg = "User registered successfully" ∧
      view = ⟨newID, req.Email, req.Name, some dbNow⟩ ∧ tok = AuthHandler.signToken lib cfg now newID := by
  cases body with
  | none => simp [AuthHandler.Register] at h
  | some req =>
    cases hs : req.Struct lib with
    | false => simp [AuthHandler.Register, hs] at h
    | true =>
      cases hf : db.firstUserByEmail req.Email with
      | some u => simp [AuthHandler.Register, hs, hf] at h
      | none =>
        cases hc : db.createUser dbNow
            ⟨newID, req.Name, req.Email, lib.GenerateFromPassword req.Password, 0, 0⟩ with
        | none => simp [AuthHandler.Register, hs, hf, hc] at h
        | some d =>
          simp only [AuthHandler.Register, hs, hf, hc, Bool.not_true, Bool.false_eq_true, if_false,
            Prod.mk.injEq, AuthResponse.ok.injEq] at h
          obtain ⟨hdb, hst, hmsg, hview, htok⟩ := h
          exact ⟨req, rfl, hs, hf, by rw [hc, hdb], hst.symm, hmsg.symm, hview.symm, htok.symm⟩

theorem JWTAuth_signToken (lib : Lib) (cfg : Config) (issued : Time) (clock : Clock)
    (header : GoMap String) (u : String)
    (hv : clock.validator < expiryOf issued) (hh : clock.handler < expiryOf issued)
    (hu : u ≠ "") (hdec : lib.Decodes cfg.JWTSecret (signTokenClaims issued u))
    (hauth : header "Authorization" =
      some ("Bearer " ++ AuthHandler.signToken lib cfg issued u)) :
    JWTAuth lib cfg.JWTSecret clock (Context.request header) =
      ((Context.request header).Set "user_id" u).Next := by
  rw [JWTAuth_bearer lib cfg.JWTSecret clock header _ hauth]
  have hp := ParseWithClaims_signToken lib cfg.JWTSecret issued clock.validator u hdec hv
  simp only [AuthHandler.signToken] at *
  rw [hp]
  have hnot : ¬ (Unix clock.handler > Unix (issued + hours24)) := by
    simp only [expiryOf, hours24, second, Unix] at *
    unfold Time at *
    omega
  simp [signTokenClaims_exp, signTokenClaims_user_id, hnot, hu]

/-! ## C1: token round trip -/

/-- C1 (amended): a token issued by `signToken` for a non-empty user
identifier `u`, presented as `Authorization: Bearer <token>` at clock readings
earlier than its exp instant, is accepted by `JWTAuth` under the same secret:
nothing is written, the request is not aborted, `user_id` is set to `u` and
the downstream handler runs.  The exp instant is issuance plus 24 hours cut
down to a whole second, so it lies in the last second before issuance plus
24 hours.  A successful Register answers 201, has inserted a user row with the
identifier it reports, and its token is accepted in the same way with
`user_id` set to that identifier. -/
theorem signToken_accepted_until_expiry (lib : Lib) (cfg : Config) (issued : Time)
    (clock : Clock) (header : GoMap String)
    (hv : clock.validator < expiryOf issued) (hh : clock.handler < expiryOf issued) :
    (issued + hours24 - second < expiryOf issued ∧ expiryOf issued ≤ issued + hours24) ∧
    (∀ u : String, u ≠ "" → lib.Decodes cfg.JWTSecret (signTokenClaims issued u) →
      header "Authorization" = some ("Bearer " ++ AuthHandler.signToken lib cfg issued u) →
      JWTAuth lib cfg.JWTSecret clock (Context.request header) =
        ((Context.request header).Set "user_id" u).Next) ∧
    (∀ (newID : UUID) (dbNow : Time) (db db1 : DB) (body : Option registerReq) (status : Nat)
      (msg : String) (view : UserView) (tok : String),
      AuthHandler.Register lib cfg newID dbNow issued db body = (db1, .ok status msg view tok) →
      status = 201 ∧
      (∃ usr ∈ db1.users, usr.ID = view.id ∧ usr.Email = view.email ∧ usr ∉ db.users) ∧
      (view.id ≠ "" → lib.Decodes cfg.JWTSecret (signTokenClaims issued view.id) →
        header "Authorization" = some ("Bearer " ++ tok) →
        JWTAuth lib cfg.JWTSecret clock (Context.request header) =
          ((Context.request header).Set "user_id" view.id).Next)) := by
  refine ⟨?_, ?_, ?_⟩
  · simp only [expiryOf, hours24, second]
    unfold Time at *
    omega
  · intro u hu hdec hauth
    exact JWTAuth_signToken lib cfg issued clock header u hv hh hu hdec hauth
  · intro newID dbNow db db1 body status msg view tok h
    obtain ⟨req, -, -, -, hcreate, hst, -, hview, htok⟩ := Register_ok_inv h
    subst hview
    refine ⟨hst, ?_, ?_⟩
    · unfold DB.createUser at hcreate
      split at hcreate
      · simp at hcreate
      · rename_i hany
        simp only [Option.some.injEq] at hcreate
        subst hcreate
        refine ⟨_, List.mem_append_right _ (List.mem_singleton_self _), rfl, rfl, ?_⟩
        intro hmem
        apply hany
        simp only [List.any_eq_true]
        exact ⟨_, hmem, by simp⟩
    · intro hne hdec hauth
      rw [htok] at hauth
      exact JWTAuth_signToken lib cfg issued clock header newID hv hh hne hdec hauth

theorem demoLib_Decodes_alice :
    demoLib.Decodes "s3cr3t" (signTokenClaims 900000000 aliceID) :=
  ⟨⟨"HS256", signTokenClaims 900000000 aliceID,
      demoLib.signingString (signTokenClaims 900000000 aliceID),
      demoLib.hmacSHA256 "s3cr3t" (demoLib.signingString (signTokenClaims 900000000 aliceID))⟩,
    rfl, rfl, rfl, rfl, rfl⟩

/-- C1 at a concrete token: issued 0.9 s after the epoch, presented one
second before exp. -/
theorem signToken_accepted_until_expiry_witness :
    JWTAuth demoLib "s3cr3t" ⟨86399000000000, 86400000000000 - 1⟩
        (Context.request (authHeader ("Bearer " ++ AuthHandler.signToken demoLib ⟨"s3cr3t"⟩ 900000000 aliceID))) =
      ((Context.request
        (authHeader ("Bearer " ++ AuthHandler.signToken demoLib ⟨"s3cr3t"⟩ 900000000 aliceID))).Set
          "user_id" aliceID).Next :=
  (signToken_accepted_until_expiry demoLib ⟨"s3cr3t"⟩ 900000000 ⟨86399000000000, 86400000000000 - 1⟩
    (authHeader ("Bearer " ++ AuthHandler.signToken demoLib ⟨"s3cr3t"⟩ 900000000 aliceID))
    (by decide) (by decide)).2.1 aliceID (by decide) demoLib_Decodes_alice rfl

/-- C1 as stated fails: a token issued 0.9 s after the epoch carries
exp = 86400 s; presented 86400.5 s after the epoch, which is less than 24 hours
after issuance, it is answered 401 TOKEN_INVALID and `user_id` is not set, although
the library decodes the token. -/
theorem signToken_rejected_within_24h :
    demoLib.Decodes "s3cr3t" (signTokenClaims 900000000 aliceID) ∧
    (86400500000000 : Nat) < 900000000 + hours24 ∧
    aliceID ≠ "" ∧
    (JWTAuth demoLib "s3cr3t" ⟨86400500000000, 86400500000000⟩
      (Context.request (authHeader
        ("Bearer " ++ AuthHandler.signToken demoLib ⟨"s3cr3t"⟩ 900000000 aliceID)))).written
      = some (401, ⟨false, "Invalid token", some "TOKEN_INVALID"⟩) ∧
    (JWTAuth demoLib "s3cr3t" ⟨86400500000000, 86400500000000⟩
      (Context.request (authHeader
        ("Bearer " ++ AuthHandler.signToken demoLib ⟨"s3cr3t"⟩ 900000000 aliceID)))).aborted = true ∧
    (JWTAuth demoLib "s3cr3t" ⟨86400500000000, 86400500000000⟩
      (Context.request (authHeader
        ("Bearer " ++ AuthHandler.signToken demoLib ⟨"s3cr3t"⟩ 900000000 aliceID)))).keys "user_id" = none :=
  ⟨demoLib_Decodes_alice, by decide⟩

/-! ## C2: expired tokens -/

/-- C2, what the code does: a token correctly signed with the configured
secret whose exp claim is a non-zero instant earlier than the clock reading of
the jwt validator is answered 401 with code TOKEN_INVALID, because
`jwt.ParseWithClaims` has already rejected it; the TOKEN_EXPIRED branch is not
reached. -/
theorem expired_token_answered_invalid (lib : Lib) (secret : String) (clock : Clock)
    (header : GoMap String) (tok : String) (raw : RawToken) (exp : Int)
    (hauth : header "Authorization" = some ("Bearer " ++ tok))
    (hraw : lib.parseUnverified tok = some raw)
    (halg : raw.alg = "HS256")
    (hsig : raw.signature = lib.hmacSHA256 secret raw.signingInput)
    (hexp : raw.claims "exp" = some (.num exp)) (hne : exp ≠ 0)
    (hpast : exp * (second : Int) < (clock.validator : Int)) :
    JWTAuth lib secret clock (Context.request header) =
      (Context.request header).AbortWithStatusJSON 401
        ⟨false, "Invalid token", some "TOKEN_INVALID"⟩ := by
  rw [JWTAuth_bearer lib secret clock header tok hauth]
  have hnot : ¬ ((clock.validator : Int) < exp * (second : Int)) := not_lt.mpr (le_of_lt hpast)
  simp [ParseWithClaims, hraw, halg, hsig, Validate, verifyExpiresAt, parseNumericDate, hexp,
    hne, hnot]

/-- C2 at a concrete request: user_id u1, exp = 3 s, presented at 5 s. -/
theorem expired_token_answered_invalid_witness :
    JWTAuth demoLib "s3cr3t" ⟨5000000000, 5000000000⟩
        (Context.request (authHeader "Bearer HS256.u1:3.s3cr3t#HS256.u1:3")) =
      (Context.request (authHeader "Bearer HS256.u1:3.s3cr3t#HS256.u1:3")).AbortWithStatusJSON 401
        ⟨false, "Invalid token", some "TOKEN_INVALID"⟩ :=
  expired_token_answered_invalid demoLib "s3cr3t" ⟨5000000000, 5000000000⟩
    (authHeader "Bearer HS256.u1:3.s3cr3t#HS256.u1:3") "HS256.u1:3.s3cr3t#HS256.u1:3"
    ⟨"HS256", (GoMap.empty.set "user_id" (JsonVal.str "u1")).set "exp" (JsonVal.num 3), "HS256.u1:3",
      "s3cr3t#HS256.u1:3"⟩ 3 rfl rfl rfl rfl rfl (by decide) (by decide)

theorem ParseWithClaims_ok_inv {lib : Lib} {now : Time} {key tok : String} {claims : MapClaims}
    (h : ParseWithClaims lib now key tok = .ok claims) :
    ∃ raw, lib.parseUnverified tok = some raw ∧ claims = raw.claims ∧
      Validate raw.claims now = true := by
  cases hraw : lib.parseUnverified tok with
  | none => simp [ParseWithClaims, hraw] at h
  | some raw =>
    simp only [ParseWithClaims, hraw] at h
    by_cases hver : (if raw.alg = "HS256" then raw.signature == lib.hmacSHA256 key raw.signingInput
        else lib.verifyOther raw.alg key raw.signingInput raw.signature) = true
    · by_cases hval : Validate raw.claims now = true
      · simp only [hver, hval, Bool.not_true, Bool.false_eq_true, if_false,
          Except.ok.injEq] at h
        exact ⟨raw, rfl, h.symm, hval⟩
      · simp [hver, hval] at h
    · simp [hver] at h

/-- The TOKEN_EXPIRED answer is given only to a token whose exp claim is a
number below the handler's clock reading and which the jwt validator has let
through: exp is 0, or the validator read the clock before exp. -/
theorem token_expired_only_when (lib : Lib) (secret : String) (clock : Clock)
    (header : GoMap String) (tok : String)
    (hauth : header "Authorization" = some ("Bearer " ++ tok))
    (h : (JWTAuth lib secret clock (Context.request header)).written =
      some (401, ⟨false, "Token expired", some "TOKEN_EXPIRED"⟩)) :
    ∃ raw exp, lib.parseUnverified tok = some raw ∧ raw.claims "exp" = some (.num exp) ∧
      exp < Unix clock.handler ∧ (exp = 0 ∨ (clock.validator : Int) < exp * (second : Int)) := by
  rw [JWTAuth_bearer lib secret clock header tok hauth] at h
  cases hp : ParseWithClaims lib clock.validator secret tok with
  | error e => simp [hp, Context.AbortWithStatusJSON] at h
  | ok claims =>
    obtain ⟨raw, hraw, rfl, hval⟩ := ParseWithClaims_ok_inv hp
    rw [hp] at h
    have hrest : ∀ x : Bool, x = false →
        ((if x = true then
            (Context.request header).AbortWithStatusJSON 401
              ⟨false, "Token expired", some "TOKEN_EXPIRED"⟩
          else
            if (match raw.claims "user_id" with
              | some (.str s) => s
              | _ => "") = "" then
              (Context.request header).AbortWithStatusJSON 401
                ⟨false, "Token missing user", some "TOKEN_INVALID"⟩
            else
              ((Context.request header).Set "user_id" (match raw.claims "user_id" with
              | some (.str s) => s
              | _ => "")).Next).written ≠
          some (401, ⟨false, "Token expired", some "TOKEN_EXPIRED"⟩)) := by
      intro x hx
      subst hx
      by_cases hu : (match raw.claims "user_id" with
          | some (.str s) => s
          | _ => "") = ""
      · simp [hu, Context.AbortWithStatusJSON]
      · simp [hu, Context.Set, Context.Next, Context.request]
    cases hexp : raw.claims "exp" with
    | none =>
      simp only [hexp] at h
      exact absurd h (hrest false rfl)
    | some v =>
      cases v with
      | num exp =>
        simp only [hexp] at h
        by_cases hgt : Unix clock.handler > exp
        · refine ⟨raw, exp, hraw, hexp, hgt, ?_⟩
          by_cases h0 : exp = 0
          · exact Or.inl h0
          · right
            simp only [Validate, verifyExpiresAt, parseNumericDate, hexp, h0, if_false,
              Bool.and_eq_true, decide_eq_true_eq] at hval
            exact hval.1
        · exact absurd h (hrest _ (by simpa using hgt))
      | str x =>
        simp only [hexp] at h
        exact absurd h (hrest false rfl)
      | other =>
        simp only [hexp] at h
        exact absurd h (hrest false rfl)

/-! ## C3: tokens signed with another key -/

/-- C3 (amended): a token whose signature does not verify under the secret
`JWTAuth` was built with is answered 401 with code TOKEN_INVALID whatever its
claims are; `user_id` is not set and the downstream handler does not run.
This is so for every token signed under another key unless that key gives the
very signature the secret gives: for an HS256 token signed under `key` it is
enough that the two MACs of its signing input differ. -/
theorem unverified_signature_rejected (lib : Lib) (secret : String) (clock : Clock)
    (header : GoMap String) :
    (∀ tok : String, header "Authorization" = some ("Bearer " ++ tok) →
      (∀ raw, lib.parseUnverified tok = some raw → signatureVerifies lib secret raw = false) →
      JWTAuth lib secret clock (Context.request header) =
          (Context.request header).AbortWithStatusJSON 401
            ⟨false, "Invalid token", some "TOKEN_INVALID"⟩ ∧
        (JWTAuth lib secret clock (Context.request header)).aborted = true ∧
        (JWTAuth lib secret clock (Context.request header)).keys "user_id" = none ∧
        (JWTAuth lib secret clock (Context.request header)).nextRan = false) ∧
    (∀ (key : String) (claims : MapClaims),
      header "Authorization" = some ("Bearer " ++ SignedString lib key claims) →
      lib.Decodes key claims →
      lib.hmacSHA256 key (lib.signingString claims) ≠
        lib.hmacSHA256 secret (lib.signingString claims) →
      JWTAuth lib secret clock (Context.request header) =
          (Context.request header).AbortWithStatusJSON 401
            ⟨false, "Invalid token", some "TOKEN_INVALID"⟩ ∧
        (JWTAuth lib secret clock (Context.request header)).aborted = true ∧
        (JWTAuth lib secret clock (Context.request header)).keys "user_id" = none ∧
        (JWTAuth lib secret clock (Context.request header)).nextRan = false) := by
  have hA : ∀ tok : String, header "Authorization" = some ("Bearer " ++ tok) →
      (∀ raw, lib.parseUnverified tok = some raw → signatureVerifies lib secret raw = false) →
      JWTAuth lib secret clock (Context.request header) =
        (Context.request header).AbortWithStatusJSON 401
          ⟨false, "Invalid token", some "TOKEN_INVALID"⟩ := by
    intro tok hauth hfail
    rw [JWTAuth_bearer lib secret clock header tok hauth]
    cases hraw : lib.parseUnverified tok with
    | none => simp [ParseWithClaims, hraw]
    | some raw =>
      have hv := hfail raw hraw
      unfold signatureVerifies at hv
      simp [ParseWithClaims, hraw, hv]
  refine ⟨?_, ?_⟩
  · intro tok hauth hfail
    rw [hA tok hauth hfail]
    exact ⟨rfl, rfl, rfl, rfl⟩
  · intro key claims hauth hdec hne
    obtain ⟨raw, hraw, halg, -, hin, hsig⟩ := hdec
    have hfail : ∀ r, lib.parseUnverified (SignedString lib key claims) = some r →
        signatureVerifies lib secret r = false := by
      intro r hr
      rw [hraw] at hr
      cases hr
      simp [signatureVerifies, halg, hin, hsig, hne]
    rw [hA _ hauth hfail]
    exact ⟨rfl, rfl, rfl, rfl⟩

/-- C3 at a concrete request: a token signed under the key `guess`, expired
long ago, presented to a gate built with the secret `s3cr3t`. -/
theorem unverified_signature_rejected_witness :
    (JWTAuth demoLib "s3cr3t" ⟨86400500000000, 86400500000000⟩
      (Context.request (authHeader
        ("Bearer " ++ SignedString demoLib "guess" (signTokenClaims 0 aliceID))))).written =
      some (401, ⟨false, "Invalid token", some "TOKEN_INVALID"⟩) :=
  congrArg Context.written
    ((unverified_signature_rejected demoLib "s3cr3t" ⟨86400500000000, 86400500000000⟩
      (authHeader ("Bearer " ++ SignedString demoLib "guess" (signTokenClaims 0 aliceID)))).2
      "guess" (signTokenClaims 0 aliceID) rfl
      ⟨⟨"HS256", signTokenClaims 0 aliceID, demoLib.signingString (signTokenClaims 0 aliceID),
        demoLib.hmacSHA256 "guess" (demoLib.signingString (signTokenClaims 0 aliceID))⟩,
        rfl, rfl, rfl, rfl, rfl⟩ (by decide)).1

/-- C3 as stated fails: HMAC fills a short key up with zero bytes, so the key
made of the secret followed by NUL differs from the secret and yet signs as
the secret does; the token it signs is admitted and `user_id` is set. -/
theorem padded_key_token_admitted :
    "s3cr3t\x00" ≠ "s3cr3t" ∧
    zeroPadLib.Decodes "s3cr3t\x00" (signTokenClaims 900000000 aliceID) ∧
    (JWTAuth zeroPadLib "s3cr3t" ⟨86399000000000, 86399000000000⟩
      (Context.request (authHeader ("Bearer " ++
        SignedString zeroPadLib "s3cr3t\x00" (signTokenClaims 900000000 aliceID))))).aborted
      = false ∧
    (JWTAuth zeroPadLib "s3cr3t" ⟨86399000000000, 86399000000000⟩
      (Context.request (authHeader ("Bearer " ++
        SignedString zeroPadLib "s3cr3t\x00" (signTokenClaims 900000000 aliceID))))).nextRan
      = true ∧
    (JWTAuth zeroPadLib "s3cr3t" ⟨86399000000000, 86399000000000⟩
      (Context.request (authHeader ("Bearer " ++
        SignedString zeroPadLib "s3cr3t\x00" (signTokenClaims 900000000 aliceID))))).GetString
      "user_id" = aliceID :=
  ⟨by decide,
    ⟨⟨"HS256", signTokenClaims 900000000 aliceID,
        zeroPadLib.signingString (signTokenClaims 900000000 aliceID),
        zeroPadLib.hmacSHA256 "s3cr3t\x00"
          (zeroPadLib.signingString (signTokenClaims 900000000 aliceID))⟩,
      rfl, rfl, rfl, rfl, rfl⟩,
    by decide⟩

/-- Two keys that give the signing input of `claims` the same MAC issue the
same token for `claims`, so the gate answers the token of the one as it
answers the token of the other, whatever the library is. -/
theorem same_mac_same_answer (lib : Lib) (secret key : String) (clock : Clock)
    (claims : MapClaims)
    (hmac : lib.hmacSHA256 key (lib.signingString claims) =
      lib.hmacSHA256 secret (lib.signingString claims)) :
    SignedString lib key claims = SignedString lib secret claims ∧
    JWTAuth lib secret clock
        (Context.request (authHeader ("Bearer " ++ SignedString lib key claims))) =
      JWTAuth lib secret clock
        (Context.request (authHeader ("Bearer " ++ SignedString lib secret claims))) := by
  have h : SignedString lib key claims = SignedString lib secret claims := by
    simp [SignedString, hmac]
  exact ⟨h, by rw [h]⟩

/-! ## C4: absent or malformed Authorization header -/

/-- C4: when the Authorization header is absent (read as the empty string) or
is not `<scheme> <token>` with a scheme equal to bearer up to letter case,
`JWTAuth` aborts with 401, error Missing token and code TOKEN_INVALID; the
context keys stay as they were, so `user_id` is not set, and the downstream
handler is not run. -/
theorem header_without_bearer_rejected (lib : Lib) (secret : String) (clock : Clock)
    (c : Context)
    (h : c.GetHeader "Authorization" = "" ∨
      ¬ ∃ scheme token : String,
        c.GetHeader "Authorization" = scheme ++ " " ++ token ∧ ToLower scheme = "bearer") :
    JWTAuth lib secret clock c =
        c.AbortWithStatusJSON 401 ⟨false, "Missing token", some "TOKEN_INVALID"⟩ ∧
      (JWTAuth lib secret clock c).written =
        some (401, ⟨false, "Missing token", some "TOKEN_INVALID"⟩) ∧
      (JWTAuth lib secret clock c).aborted = true ∧
      (JWTAuth lib secret clock c).keys = c.keys ∧
      (JWTAuth lib secret clock c).nextRan = c.nextRan := by
  have hmain : JWTAuth lib secret clock c =
      c.AbortWithStatusJSON 401 ⟨false, "Missing token", some "TOKEN_INVALID"⟩ := by
    have hno : ¬ ∃ scheme token : String,
        c.GetHeader "Authorization" = scheme ++ " " ++ token ∧ ToLower scheme = "bearer" := by
      rcases h with h | h
      · rintro ⟨scheme, token, heq, -⟩
        rw [h] at heq
        have hlen := congrArg String.length heq
        have h1 : (" " : String).length = 1 := rfl
        have h0 : ("" : String).length = 0 := rfl
        simp only [String.length_append, h1, h0] at hlen
        omega
      · exact h
    cases hcut : cut ' ' (c.GetHeader "Authorization").toList with
    | none =>
      have hs : SplitN2 (c.GetHeader "Authorization") = [c.GetHeader "Authorization"] := by
        simp only [SplitN2, hcut]
      simp only [JWTAuth, hs]
    | some p =>
      obtain ⟨a, b⟩ := p
      have hs : SplitN2 (c.GetHeader "Authorization") = [String.mk a, String.mk b] := by
        simp only [SplitN2, hcut]
      by_cases hl : ToLower (String.mk a) = "bearer"
      · exfalso
        apply hno
        refine ⟨String.mk a, String.mk b, ?_, hl⟩
        apply String.ext
        have hsound := cut_sound ' ' _ a b hcut
        simp only [String.toList] at hsound
        simp only [String.data_append, hsound, List.append_assoc]
        rfl
      · simp only [JWTAuth, hs]
        simp [hl]
  rw [hmain]
  exact ⟨rfl, rfl, rfl, rfl, rfl⟩

/-- C4 at a concrete request: no headers at all. -/
theorem header_without_bearer_rejected_witness :
    (JWTAuth demoLib "s3cr3t" ⟨0, 0⟩ (Context.request GoMap.empty)).written =
      some (401, ⟨false, "Missing token", some "TOKEN_INVALID"⟩) :=
  (header_without_bearer_rejected demoLib "s3cr3t" ⟨0, 0⟩ (Context.request GoMap.empty)
    (Or.inl rfl)).2.1

/-- A bare token and a Basic credential are both turned away as in C4. -/
theorem bare_token_and_basic_rejected :
    (JWTAuth demoLib "s3cr3t" ⟨0, 0⟩
      (Context.request (authHeader "HS256.u1:3.s3cr3t#HS256.u1:3"))).written =
        some (401, ⟨false, "Missing token", some "TOKEN_INVALID"⟩) ∧
    (JWTAuth demoLib "s3cr3t" ⟨0, 0⟩
      (Context.request (authHeader "Basic dTE6cHc="))).written =
        some (401, ⟨false, "Missing token", some "TOKEN_INVALID"⟩) := by
  decide

/-! ## C5: registration validation -/

/-- C5 (amended): for a decoded registration body, Register answers 400 with
code VALIDATION_ERROR exactly when the email is empty or not a valid address,
or the password has fewer than 6 characters, or the name is empty or has more
than 100 characters; in that case the store is returned unchanged, and
otherwise the answer carries another code or none. -/
theorem Register_validation_error_iff (lib : Lib) (cfg : Config) (newID : UUID)
    (dbNow now : Time) (db : DB) (req : registerReq) :
    (((AuthHandler.Register lib cfg newID dbNow now db (some req)).2.status = 400 ∧
        (AuthHandler.Register lib cfg newID dbNow now db (some req)).2.code = some "VALIDATION_ERROR") ↔
      ((req.Email = "" ∨ lib.isEmail req.Email = false) ∨ req.Password.length < 6 ∨
        (req.Name = "" ∨ 100 < req.Name.length))) ∧
    ((AuthHandler.Register lib cfg newID dbNow now db (some req)).2.code = some "VALIDATION_ERROR" →
      AuthHandler.Register lib cfg newID dbNow now db (some req) =
        (db, .fail 400 ⟨false, "Validation failed", some "VALIDATION_ERROR"⟩)) := by
  have hstruct : req.Struct lib = false ↔
      ((req.Email = "" ∨ lib.isEmail req.Email = false) ∨ req.Password.length < 6 ∨
        (req.Name = "" ∨ 100 < req.Name.length)) := by
    have hpw : req.Password = "" → req.Password.length < 6 := by
      intro h
      rw [h]
      decide
    constructor
    · intro h
      by_contra hcon
      simp only [not_or, not_lt, Bool.not_eq_false] at hcon
      obtain ⟨⟨he, hi⟩, hp, hn, hl⟩ := hcon
      have hpne : req.Password ≠ "" := fun h0 => absurd (hpw h0) (not_lt.mpr hp)
      simp [registerReq.Struct, he, hi, hp, hn, hl, hpne] at h
    · intro h
      rcases h with (he | hi) | hp | hn | hl
      · simp [registerReq.Struct, he]
      · simp [registerReq.Struct, hi]
      · have : ¬ (6 ≤ req.Password.length) := not_le.mpr hp
        simp [registerReq.Struct, this]
      · simp [registerReq.Struct, hn]
      · have : ¬ (req.Name.length ≤ 100) := not_le.mpr hl
        simp [registerReq.Struct, this]
  cases hs : req.Struct lib with
  | false =>
    have hr : AuthHandler.Register lib cfg newID dbNow now db (some req) =
        (db, .fail 400 ⟨false, "Validation failed", some "VALIDATION_ERROR"⟩) := by
      simp [AuthHandler.Register, hs]
    rw [hr]
    exact ⟨⟨fun _ => hstruct.1 hs, fun _ => ⟨rfl, rfl⟩⟩, fun _ => rfl⟩
  | true =>
    have hnot : ¬ ((req.Email = "" ∨ lib.isEmail req.Email = false) ∨ req.Password.length < 6 ∨
        (req.Name = "" ∨ 100 < req.Name.length)) := by
      intro h
      have := hstruct.2 h
      rw [hs] at this
      cases this
    have hcode : (AuthHandler.Register lib cfg newID dbNow now db (some req)).2.code ≠
        some "VALIDATION_ERROR" := by
      cases hf : db.firstUserByEmail req.Email with
      | some u => simp [AuthHandler.Register, hs, hf, AuthResponse.code]
      | none =>
        cases hc : db.createUser dbNow
            ⟨newID, req.Name, req.Email, lib.GenerateFromPassword req.Password, 0, 0⟩ with
        | none => simp [AuthHandler.Register, hs, hf, hc, AuthResponse.code]
        | some d => simp [AuthHandler.Register, hs, hf, hc, AuthResponse.code]
    exact ⟨⟨fun h => absurd h.2 hcode, fun h => absurd h hnot⟩, fun h => absurd h hcode⟩

/-- C5 as stated fails: a body with a valid email, a 7-character password and
the empty name (which has no more than 100 characters) is answered 400
VALIDATION_ERROR, and no user is stored. -/
theorem Register_empty_name_rejected :
    demoLib.isEmail "a@x.com" = true ∧ ¬ ("secret1".length < 6) ∧ ¬ (100 < "".length) ∧
    AuthHandler.Register demoLib ⟨"s3cr3t"⟩ aliceID 5 7 ⟨[], [], []⟩ (some ⟨"a@x.com", "secret1", ""⟩) =
      (⟨[], [], []⟩, .fail 400 ⟨false, "Validation failed", some "VALIDATION_ERROR"⟩) := by
  decide

/-- C5 at a concrete body: a string without an at sign as email. -/
theorem Register_validation_error_iff_witness :
    AuthHandler.Register demoLib ⟨"s3cr3t"⟩ aliceID 5 7 ⟨[], [], []⟩
        (some ⟨"not-an-email", "secret1", "A"⟩) =
      (⟨[], [], []⟩, .fail 400 ⟨false, "Validation failed", some "VALIDATION_ERROR"⟩) :=
  (Register_validation_error_iff demoLib ⟨"s3cr3t"⟩ aliceID 5 7 ⟨[], [], []⟩
    ⟨"not-an-email", "secret1", "A"⟩).2 (by decide)

/-! ## C6: registering an email twice -/

/-- C6: when a Register call succeeds (status 201, one user row added), a
later Register call with a valid body carrying the same email string answers
400 with code EMAIL_EXISTS, carries no token, and returns the store as the
first call left it. -/
theorem Register_twice_email_exists (lib : Lib) (cfg : Config) (id1 id2 : UUID)
    (dbNow1 now1 dbNow2 now2 : Time) (db db1 : DB) (req1 req2 : registerReq) (status : Nat)
    (msg : String) (view : UserView) (tok : String)
    (hsame : req1.Email = req2.Email) (hvalid : req2.Struct lib = true)
    (hfirst : AuthHandler.Register lib cfg id1 dbNow1 now1 db (some req1) = (db1, .ok status msg view tok)) :
    status = 201 ∧ db1.users.length = db.users.length + 1 ∧
    AuthHandler.Register lib cfg id2 dbNow2 now2 db1 (some req2) =
      (db1, .fail 400 ⟨false, "Email already exists", some "EMAIL_EXISTS"⟩) ∧
    (AuthHandler.Register lib cfg id2 dbNow2 now2 db1 (some req2)).2.token = none := by
  obtain ⟨req, hbody, -, -, hcreate, hst, -, -, -⟩ := Register_ok_inv hfirst
  cases hbody
  have hdb1 : db1.users = db.users ++
      [⟨id1, req1.Name, req1.Email, lib.GenerateFromPassword req1.Password, dbNow1, dbNow1⟩] := by
    unfold DB.createUser at hcreate
    split at hcreate
    · cases hcreate
    · simp only [Option.some.injEq] at hcreate
      rw [← hcreate]
  have hfound : (db1.firstUserByEmail req2.Email).isSome = true := by
    unfold DB.firstUserByEmail
    rw [List.find?_isSome]
    refine ⟨⟨id1, req1.Name, req1.Email, lib.GenerateFromPassword req1.Password, dbNow1, dbNow1⟩,
      ?_, ?_⟩
    · rw [hdb1]
      simp
    · simp [hsame]
  have hsecond : AuthHandler.Register lib cfg id2 dbNow2 now2 db1 (some req2) =
      (db1, .fail 400 ⟨false, "Email already exists", some "EMAIL_EXISTS"⟩) := by
    cases hf : db1.firstUserByEmail req2.Email with
    | none => rw [hf] at hfound; cases hfound
    | some u => simp [AuthHandler.Register, hvalid, hf]
  refine ⟨hst, ?_, hsecond, ?_⟩
  · rw [hdb1]
    simp
  · rw [hsecond]
    rfl

/-- C6 at a concrete pair of requests on the empty store. -/
theorem Register_twice_email_exists_witness :
    AuthHandler.Register demoLib ⟨"s3cr3t"⟩ bobID 9 9 aliceDB (some ⟨"a@x.com", "another1", "B"⟩) =
      (aliceDB, .fail 400 ⟨false, "Email already exists", some "EMAIL_EXISTS"⟩) :=
  (Register_twice_email_exists demoLib ⟨"s3cr3t"⟩ aliceID bobID 5 7 9 9 ⟨[], [], []⟩ aliceDB
    ⟨"a@x.com", "secret1", "A"⟩ ⟨"a@x.com", "another1", "B"⟩ 201 "User registered successfully"
    ⟨aliceID, "a@x.com", "A", some 5⟩ (AuthHandler.signToken demoLib ⟨"s3cr3t"⟩ 7 aliceID)
    rfl (by decide) (by decide)).2.2.1

/-! ## C7: login -/

/-- C7: for a login request that passes validation, an unknown email and a
known email whose stored hash does not verify the password get the same
answer, 401 with success false, error Invalid credentials and code
INVALID_CREDENTIALS, without a token; when the hash verifies the password the
answer is 200 with the token `signToken` makes for the found user, whose
user_id claim is that user's identifier. -/
theorem Login_failure_uniform (lib : Lib) (cfg : Config) (now : Time) (db : DB)
    (req : loginReq) (hvalid : req.Struct lib = true) :
    ((∀ u ∈ db.users, u.Email ≠ req.Email) →
      AuthHandler.Login lib cfg now db (some req) =
        .fail 401 ⟨false, "Invalid credentials", some "INVALID_CREDENTIALS"⟩) ∧
    (∀ u, db.firstUserByEmail req.Email = some u →
      lib.CompareHashAndPassword u.PasswordHash req.Password = false →
      AuthHandler.Login lib cfg now db (some req) =
        .fail 401 ⟨false, "Invalid credentials", some "INVALID_CREDENTIALS"⟩) ∧
    (AuthResponse.fail 401 ⟨false, "Invalid credentials", some "INVALID_CREDENTIALS"⟩).token
      = none ∧
    (∀ u, db.firstUserByEmail req.Email = some u →
      lib.CompareHashAndPassword u.PasswordHash req.Password = true →
      u ∈ db.users ∧ u.Email = req.Email ∧
      AuthHandler.Login lib cfg now db (some req) =
        .ok 200 "Login successful" ⟨u.ID, u.Email, u.Name, none⟩
          (SignedString lib cfg.JWTSecret (signTokenClaims now u.ID)) ∧
      signTokenClaims now u.ID "user_id" = some (.str u.ID)) := by
  refine ⟨?_, ?_, rfl, ?_⟩
  · intro hnone
    have hf : db.firstUserByEmail req.Email = none := by
      unfold DB.firstUserByEmail
      rw [List.find?_eq_none]
      intro u hu
      simpa using hnone u hu
    simp [AuthHandler.Login, hvalid, hf]
  · intro u hf hcmp
    simp [AuthHandler.Login, hvalid, hf, hcmp]
  · intro u hf hcmp
    have hmem : u ∈ db.users := List.mem_of_find?_eq_some hf
    have hem : u.Email = req.Email := by
      have := List.find?_some hf
      simpa using this
    exact ⟨hmem, hem, by simp [AuthHandler.Login, hvalid, hf, hcmp, AuthHandler.signToken], signTokenClaims_user_id now u.ID⟩

/-- C7 at a concrete request: alice's email with a wrong password. -/
theorem Login_failure_uniform_witness :
    AuthHandler.Login demoLib ⟨"s3cr3t"⟩ 7 aliceDB (some ⟨"a@x.com", "wrong-password"⟩) =
      .fail 401 ⟨false, "Invalid credentials", some "INVALID_CREDENTIALS"⟩ :=
  (Login_failure_uniform demoLib ⟨"s3cr3t"⟩ 7 aliceDB ⟨"a@x.com", "wrong-password"⟩
    (by decide)).2.1 ⟨aliceID, "A", "a@x.com", "$2a$secret1", 5, 5⟩ (by decide) (by decide)

/-! ## C8: pull -/

instance : IsTotal Note Note.newerEq := ⟨fun a b => Nat.le_total b.UpdatedAt a.UpdatedAt⟩

instance : IsTrans Note Note.newerEq := ⟨fun _ _ _ hab hbc => Nat.le_trans hbc hab⟩

instance : IsTotal Category Category.newerEq := ⟨fun a b => Nat.le_total b.UpdatedAt a.UpdatedAt⟩

instance : IsTrans Category Category.newerEq := ⟨fun _ _ _ hab hbc => Nat.le_trans hbc hab⟩

/-- The first `k` rows of a sorted table: together with the rows left out they
are the table, they are sorted, every row left out comes after each of them,
and there are `min k` (table size) of them. -/
theorem take_insertionSort_spec {α : Type} (r : α → α → Prop) [DecidableRel r] [IsTotal α r]
    [IsTrans α r] (l : List α) (k : Nat) :
    (∃ rest, (((l.insertionSort r).take k) ++ rest).Perm l ∧
      ∀ a ∈ (l.insertionSort r).take k, ∀ b ∈ rest, r a b) ∧
    ((l.insertionSort r).take k).Pairwise r ∧
    ((l.insertionSort r).take k).length = min k l.length := by
  have hsorted : (l.insertionSort r).Pairwise r := List.sorted_insertionSort r l
  have hsplit : (l.insertionSort r).take k ++ (l.insertionSort r).drop k = l.insertionSort r :=
    List.take_append_drop k _
  refine ⟨⟨(l.insertionSort r).drop k, ?_, ?_⟩, ?_, ?_⟩
  · rw [hsplit]
    exact List.perm_insertionSort r l
  · rw [← hsplit, List.pairwise_append] at hsorted
    exact hsorted.2.2
  · exact hsorted.sublist (List.take_sublist k _)
  · rw [List.length_take, List.length_insertionSort]

/-- C8: Pull answers 200; `notes.created` holds only rows of the store that
are owned by the caller and not soft-deleted, in descending `updated_at`
order; together with some left-out rows, none of them newer than any returned
row, they are exactly the caller's non-deleted notes, and their number is the
minimum of 100 and the number of those notes.  The same holds of
`categories.created` and the caller's categories.  The updated and deleted
buckets are empty. -/
theorem Pull_recent_owned (now : Time) (db : DB) (userID : String) :
    (SyncHandler.Pull now db userID).status = 200 ∧
    ((∃ rest, ((SyncHandler.Pull now db userID).notes_created ++ rest).Perm
          (db.notes.filter (fun n => n.UserID == userID && n.DeletedAt.isNone)) ∧
        ∀ n ∈ (SyncHandler.Pull now db userID).notes_created, ∀ m ∈ rest, m.UpdatedAt ≤ n.UpdatedAt) ∧
      (SyncHandler.Pull now db userID).notes_created.Pairwise (fun a b => b.UpdatedAt ≤ a.UpdatedAt) ∧
      (SyncHandler.Pull now db userID).notes_created.length =
        min 100 (db.notes.filter (fun n => n.UserID == userID && n.DeletedAt.isNone)).length ∧
      (SyncHandler.Pull now db userID).notes_created.length ≤ 100 ∧
      ∀ n ∈ (SyncHandler.Pull now db userID).notes_created,
        n ∈ db.notes ∧ n.UserID = userID ∧ n.DeletedAt = none) ∧
    ((∃ rest, ((SyncHandler.Pull now db userID).categories_created ++ rest).Perm
          (db.categories.filter (fun c => c.UserID == userID)) ∧
        ∀ c ∈ (SyncHandler.Pull now db userID).categories_created, ∀ m ∈ rest, m.UpdatedAt ≤ c.UpdatedAt) ∧
      (SyncHandler.Pull now db userID).categories_created.Pairwise (fun a b => b.UpdatedAt ≤ a.UpdatedAt) ∧
      (SyncHandler.Pull now db userID).categories_created.length =
        min 100 (db.categories.filter (fun c => c.UserID == userID)).length ∧
      (SyncHandler.Pull now db userID).categories_created.length ≤ 100 ∧
      ∀ c ∈ (SyncHandler.Pull now db userID).categories_created, c ∈ db.categories ∧ c.UserID = userID) ∧
    (SyncHandler.Pull now db userID).notes_updated = [] ∧ (SyncHandler.Pull now db userID).notes_deleted = [] ∧
    (SyncHandler.Pull now db userID).categories_updated = [] ∧
    (SyncHandler.Pull now db userID).categories_deleted = [] := by
  obtain ⟨hn1, hn2, hn3⟩ := take_insertionSort_spec Note.newerEq
    (db.notes.filter (fun n => n.UserID == userID && n.DeletedAt.isNone)) 100
  obtain ⟨hc1, hc2, hc3⟩ := take_insertionSort_spec Category.newerEq
    (db.categories.filter (fun c => c.UserID == userID)) 100
  refine ⟨rfl, ⟨hn1, hn2, hn3, ?_, ?_⟩, ⟨hc1, hc2, hc3, ?_, ?_⟩, rfl, rfl, rfl, rfl⟩
  · exact le_trans (le_of_eq hn3) (Nat.min_le_left _ _)
  · intro n hn
    have hmem : n ∈ db.notes.filter (fun n => n.UserID == userID && n.DeletedAt.isNone) :=
      (List.perm_insertionSort Note.newerEq _).subset (List.mem_of_mem_take hn)
    rw [List.mem_filter] at hmem
    obtain ⟨hin, hp⟩ := hmem
    simp only [Bool.and_eq_true, beq_iff_eq, Option.isNone_iff_eq_none] at hp
    exact ⟨hin, hp.1, hp.2⟩
  · exact le_trans (le_of_eq hc3) (Nat.min_le_left _ _)
  · intro c hc
    have hmem : c ∈ db.categories.filter (fun c => c.UserID == userID) :=
      (List.perm_insertionSort Category.newerEq _).subset (List.mem_of_mem_take hc)
    rw [List.mem_filter] at hmem
    obtain ⟨hin, hp⟩ := hmem
    simp only [beq_iff_eq] at hp
    exact ⟨hin, hp⟩

/-- C8 at a concrete store with two owners: bob's note and alice's
soft-deleted note are left out, alice's live notes come newest first, and all
returned notes are alice's. -/
theorem Pull_recent_owned_witness :
    ((SyncHandler.Pull 50 twoOwnersDB aliceID).notes_created.map (fun n => n.Title)
      = ["new", "old"]) ∧
    ∀ n ∈ (SyncHandler.Pull 50 twoOwnersDB aliceID).notes_created,
      n ∈ twoOwnersDB.notes ∧ n.UserID = aliceID ∧ n.DeletedAt = none :=
  ⟨by decide, (Pull_recent_owned 50 twoOwnersDB aliceID).2.1.2.2.2.2⟩

/-! ## C9 and C10: push -/

theorem pushEntry_created (lib : Lib) (uuidNew : Nat → UUID) (clock : Nat → Time)
    (userID : String) (uid : UUID) (st : PushState) (n : GoMap JsonVal)
    (hparse : lib.uuidParse userID = some uid)
    (hfresh : ∀ r ∈ st.db.notes, r.ID ≠ uuidNew st.calls)
    (hfit : entryFits n = true) :
    pushEntry lib uuidNew clock userID st n =
      some ⟨{ st.db with notes := st.db.notes ++ [insertedNote uid uuidNew clock st.calls n] },
        (match localID n with
          | some l => st.createdNotes.set l (uuidNew st.calls)
          | none => st.createdNotes),
        st.calls + 1⟩ := by
  have hany : (st.db.notes.any fun r => r.ID == uuidNew st.calls) = false := by
    rw [List.any_eq_false]
    intro r hr
    simpa using hfresh r hr
  have hmap : (match n "id" with
      | some (.str l) => if l ≠ "" then st.createdNotes.set l (uuidNew st.calls)
          else st.createdNotes
      | _ => st.createdNotes) =
      (match localID n with
        | some l => st.createdNotes.set l (uuidNew st.calls)
        | none => st.createdNotes) := by
    unfold localID
    cases h : n "id" with
    | none => rfl
    | some v =>
      cases v with
      | str l => by_cases hl : l = "" <;> simp [hl]
      | num x => rfl
      | other => rfl
  have hfits : Note.fits ⟨uuidNew st.calls, uid, asString (n "title"), asString (n "content"),
      none, [], false, 0, 0, none⟩ = true := by
    simp only [entryFits, Bool.and_eq_true, decide_eq_true_eq] at hfit
    simp [Note.fits, hfit.1, hfit.2]
  simp only [pushEntry, hparse, DB.createNote, hany, hfits, Bool.not_true, Bool.or_self,
    Bool.false_eq_true, if_false, Option.getD_some, hmap]
  rfl

theorem pushLoop_spec (lib : Lib) (uuidNew : Nat → UUID) (clock : Nat → Time)
    (userID : String) (uid : UUID) (hparse : lib.uuidParse userID = some uid) :
    ∀ (es : List (GoMap JsonVal)) (st : PushState),
      (∀ i < es.length, ∀ r ∈ st.db.notes, r.ID ≠ uuidNew (st.calls + i)) →
      (∀ j < es.length, ∀ i < j, uuidNew (st.calls + i) ≠ uuidNew (st.calls + j)) →
      (∀ e ∈ es, entryFits e = true) →
      pushLoop lib uuidNew clock userID st es =
        some ⟨{ st.db with
            notes := st.db.notes ++ insertedNotes uid uuidNew clock st.calls es },
          createdAfter uuidNew st.calls st.createdNotes es, st.calls + es.length⟩
  | [], st, _, _, _ => by
    simp [pushLoop, insertedNotes, createdAfter]
  | n :: rest, st, hold, hdist, hfit => by
    have h0 : ∀ r ∈ st.db.notes, r.ID ≠ uuidNew st.calls := by
      intro r hr
      have := hold 0 (by simp) r hr
      simpa using this
    rw [pushLoop, pushEntry_created lib uuidNew clock userID uid st n hparse h0
      (hfit n (List.mem_cons_self _ _))]
    simp only
    rw [pushLoop_spec lib uuidNew clock userID uid hparse rest]
    · simp only [insertedNotes, createdAfter, List.append_assoc, List.singleton_append,
        List.length_cons]
      congr 2
      omega
    · intro i hi r hr
      simp only [List.mem_append, List.mem_singleton] at hr
      rcases hr with hr | hr
      · have := hold (i + 1) (by simp; omega) r hr
        rw [show st.calls + 1 + i = st.calls + (i + 1) by omega]
        exact this
      · subst hr
        have := hdist (i + 1) (by simp; omega) 0 (by omega)
        rw [show st.calls + 1 + i = st.calls + (i + 1) by omega]
        simpa [insertedNote] using this
    · intro j hj i hij
      have := hdist (j + 1) (by simp; omega) (i + 1) (by omega)
      rw [show st.calls + 1 + i = st.calls + (i + 1) by omega,
        show st.calls + 1 + j = st.calls + (j + 1) by omega]
      exact this
    · exact fun e he => hfit e (List.mem_cons_of_mem _ he)

theorem insertedNotes_length (uid : UUID) (uuidNew : Nat → UUID) (clock : Nat → Time) :
    ∀ (es : List (GoMap JsonVal)) (k : Nat),
      (insertedNotes uid uuidNew clock k es).length = es.length
  | [], _ => rfl
  | _ :: rest, k => by
    simp [insertedNotes, insertedNotes_length uid uuidNew clock rest (k + 1)]

theorem Push_spec (lib : Lib) (uuidNew : Nat → UUID) (clock : Nat → Time) (now : Time)
    (db : DB) (userID : String) (uid : UUID) (body : PushBody)
    (hparse : lib.uuidParse userID = some uid)
    (hfresh : FreshIDs uuidNew db (notesCreate body).length)
    (hfit : ∀ e ∈ notesCreate body, entryFits e = true) :
    SyncHandler.Push lib uuidNew clock now db userID (some body) =
      ({ db with notes := db.notes ++ insertedNotes uid uuidNew clock 0 (notesCreate body) },
        .ok ⟨200, true, "Sync completed successfully", [],
          createdAfter uuidNew 0 GoMap.empty (notesCreate body), GoMap.empty, now⟩) := by
  have h := pushLoop_spec lib uuidNew clock userID uid hparse (notesCreate body)
    ⟨db, GoMap.empty, 0⟩
    (by intro i hi r hr; simpa using hfresh.1 i hi r hr)
    (by intro j hj i hij; simpa using hfresh.2 j hj i hij) hfit
  simp only [SyncHandler.Push, h]


theorem createdAfter_absent (uuidNew : Nat → UUID) (l : String) :
    ∀ (es : List (GoMap JsonVal)) (k : Nat) (cm : GoMap String),
      (∀ e ∈ es, localID e ≠ some l) → createdAfter uuidNew k cm es l = cm l
  | [], _, _, _ => rfl
  | n :: rest, k, cm, h => by
    rw [createdAfter, createdAfter_absent uuidNew l rest (k + 1) _
      (fun e he => h e (List.mem_cons_of_mem _ he))]
    have hn : localID n ≠ some l := h n (List.mem_cons_self _ _)
    cases hl : localID n with
    | none => rfl
    | some l' =>
      have hne : l ≠ l' := fun heq => hn (by rw [hl, heq])
      simp [GoMap.set, hne]

theorem createdAfter_last (uuidNew : Nat → UUID) (l : String) :
    ∀ (es : List (GoMap JsonVal)) (k : Nat) (cm : GoMap String),
      (∃ e ∈ es, localID e = some l) →
      ∃ j e, es[j]? = some e ∧ localID e = some l ∧
        (∀ j' e', j < j' → es[j']? = some e' → localID e' ≠ some l) ∧
        createdAfter uuidNew k cm es l = some (uuidNew (k + j))
  | [], _, _, h => by
    obtain ⟨e, he, -⟩ := h
    cases he
  | n :: rest, k, cm, h => by
    by_cases hrest : ∃ e ∈ rest, localID e = some l
    · obtain ⟨j, e, hje, hle, hlast, hmap⟩ := createdAfter_last uuidNew l rest (k + 1)
        (match localID n with
          | some l' => cm.set l' (uuidNew k)
          | none => cm) hrest
      refine ⟨j + 1, e, by simpa using hje, hle, ?_, ?_⟩
      · intro j' e' hlt hje'
        cases j' with
        | zero => omega
        | succ j'' =>
          exact hlast j'' e' (by omega) (by simpa using hje')
      · rw [createdAfter, hmap]
        congr 2
        omega
    · have hhead : localID n = some l := by
        obtain ⟨e, he, hle⟩ := h
        rcases List.mem_cons.1 he with rfl | he'
        · exact hle
        · exact absurd ⟨e, he', hle⟩ hrest
      have hnone : ∀ e ∈ rest, localID e ≠ some l := fun e he hle => hrest ⟨e, he, hle⟩
      refine ⟨0, n, by simp, hhead, ?_, ?_⟩
      · intro j' e' hlt hje'
        cases j' with
        | zero => omega
        | succ j'' =>
          have hmem : e' ∈ rest := List.getElem?_mem (by simpa using hje')
          exact hnone e' hmem
      · rw [createdAfter, createdAfter_absent uuidNew l rest (k + 1) _ hnone, hhead]
        simp [GoMap.set]

theorem insertedNote_mem (uid : UUID) (uuidNew : Nat → UUID) (clock : Nat → Time) :
    ∀ (es : List (GoMap JsonVal)) (k j : Nat) (e : GoMap JsonVal), es[j]? = some e →
      insertedNote uid uuidNew clock (k + j) e ∈ insertedNotes uid uuidNew clock k es
  | [], _, _, _, h => by simp at h
  | n :: rest, k, j, e, h => by
    cases j with
    | zero =>
      simp only [List.getElem?_cons_zero, Option.some.injEq] at h
      subst h
      simp [insertedNotes]
    | succ j' =>
      have := insertedNote_mem uid uuidNew clock rest (k + 1) j' e (by simpa using h)
      rw [show k + 1 + j' = k + (j' + 1) by omega] at this
      exact List.mem_cons_of_mem _ this

theorem find_insertedNotes (uid : UUID) (uuidNew : Nat → UUID) (clock : Nat → Time) :
    ∀ (es : List (GoMap JsonVal)) (k j : Nat) (e : GoMap JsonVal), es[j]? = some e →
      (∀ i < j, uuidNew (k + i) ≠ uuidNew (k + j)) →
      (insertedNotes uid uuidNew clock k es).find?
          (fun n => n.UserID == uid && n.ID == uuidNew (k + j) && n.DeletedAt.isNone) =
        some (insertedNote uid uuidNew clock (k + j) e)
  | [], _, _, _, h, _ => by simp at h
  | n :: rest, k, j, e, h, hd => by
    cases j with
    | zero =>
      simp only [List.getElem?_cons_zero, Option.some.injEq] at h
      subst h
      simp [insertedNotes, insertedNote]
    | succ j' =>
      have hne : uuidNew k ≠ uuidNew (k + (j' + 1)) := by
        have := hd 0 (by omega)
        simpa using this
      have hrec := find_insertedNotes uid uuidNew clock rest (k + 1) j' e (by simpa using h)
        (by
          intro i hi
          have := hd (i + 1) (by omega)
          rw [show k + 1 + i = k + (i + 1) by omega, show k + 1 + j' = k + (j' + 1) by omega]
          exact this)
      rw [show k + 1 + j' = k + (j' + 1) by omega] at hrec
      simp only [insertedNotes]
      rw [List.find?_cons_of_neg _ (by simp [insertedNote, hne])]
      exact hrec

/-- What Push does when nothing goes wrong: for a caller whose identifier
parses as a UUID, with fresh values of `uuid.New()` and entries within the
column sizes, an entry of `batch.notes.create` with a non-empty string id L, a
string title T and a string content C makes Push answer 200 with
`created_ids.notes` mapping L to the identifier generated for the last entry
carrying L, an identifier no stored note had before; the store then holds a
note with that identifier, owned by the caller, with that entry's title and
content, which are T and C when no later entry carries L; and when the
caller's identifier is in canonical form `Get` finds that note. -/
theorem Push_create_maps_local_id (lib : Lib) (uuidNew : Nat → UUID) (clock : Nat → Time)
    (now : Time) (db : DB) (userID : String) (uid : UUID) (body : PushBody)
    (i : Nat) (entry : GoMap JsonVal) (L T C : String)
    (hparse : lib.uuidParse userID = some uid)
    (hfresh : FreshIDs uuidNew db (notesCreate body).length)
    (hfit : ∀ e ∈ notesCreate body, entryFits e = true)
    (hentry : (notesCreate body)[i]? = some entry)
    (hid : entry "id" = some (.str L)) (hL : L ≠ "")
    (htitle : entry "title" = some (.str T)) (hcontent : entry "content" = some (.str C)) :
    ∃ (data : PushData) (j : Nat) (e : GoMap JsonVal) (note : Note),
      (SyncHandler.Push lib uuidNew clock now db userID (some body)).2 = .ok data ∧ data.status = 200 ∧
      (notesCreate body)[j]? = some e ∧ localID e = some L ∧ i ≤ j ∧
      (∀ j' e', j < j' → (notesCreate body)[j']? = some e' → localID e' ≠ some L) ∧
      data.created_ids_notes L = some (uuidNew j) ∧
      (∀ r ∈ db.notes, r.ID ≠ uuidNew j) ∧
      note ∈ (SyncHandler.Push lib uuidNew clock now db userID (some body)).1.notes ∧
      note.ID = uuidNew j ∧ note.UserID = uid ∧
      note.Title = asString (e "title") ∧ note.Content = asString (e "content") ∧
      (j = i → note.Title = T ∧ note.Content = C) ∧
      (uid = userID →
        NotesHandler.Get (SyncHandler.Push lib uuidNew clock now db userID (some body)).1 userID (uuidNew j) =
          (200, some note)) := by
  have hloc : localID entry = some L := by simp [localID, hid, hL]
  have hmem : entry ∈ notesCreate body := List.getElem?_mem hentry
  obtain ⟨j, e, hje, hle, hlast, hmap⟩ :=
    createdAfter_last uuidNew L (notesCreate body) 0 GoMap.empty ⟨entry, hmem, hloc⟩
  have hjlt : j < (notesCreate body).length := by
    by_contra hge
    rw [List.getElem?_eq_none (not_lt.mp hge)] at hje
    cases hje
  have hij : i ≤ j := by
    by_contra hlt
    exact hlast i entry (not_le.mp hlt) hentry hloc
  have hpush := Push_spec lib uuidNew clock now db userID uid body hparse hfresh hfit
  have hin := insertedNote_mem uid uuidNew clock (notesCreate body) 0 j e hje
  simp only [Nat.zero_add] at hin hmap
  refine ⟨_, j, e, insertedNote uid uuidNew clock j e, by rw [hpush], rfl, hje, hle, hij, hlast,
    hmap, hfresh.1 j hjlt, ?_, rfl, rfl, rfl, rfl, ?_, ?_⟩
  · rw [hpush]
    exact List.mem_append_right _ hin
  · intro hji
    subst hji
    rw [hentry] at hje
    cases hje
    simp [insertedNote, htitle, hcontent, asString]
  · intro hcanon
    subst hcanon
    rw [hpush]
    have hfind := find_insertedNotes uid uuidNew clock (notesCreate body) 0 j e hje
      (by intro i hi; simpa using hfresh.2 j hjlt i hi)
    simp only [Nat.zero_add] at hfind
    have hold : db.notes.find?
        (fun n => n.UserID == uid && n.ID == uuidNew j && n.DeletedAt.isNone) = none := by
      rw [List.find?_eq_none]
      intro r hr
      have := hfresh.1 j hjlt r hr
      simp [this]
    simp only [NotesHandler.Get, DB.firstNote, List.find?_append, hold, hfind, Option.none_or]

/-- The same at a concrete request: alice pushes one entry with local id
local1. -/
theorem Push_create_maps_local_id_witness :
    ∃ (data : PushData) (j : Nat) (e : GoMap JsonVal) (note : Note),
      (SyncHandler.Push demoLib demoUuidNew (fun _ => 60) 61 aliceDB aliceID
        (some (createBody [localEntry "local1" "T" "C"]))).2 = .ok data ∧ data.status = 200 ∧
      (notesCreate (createBody [localEntry "local1" "T" "C"]))[j]? = some e ∧
      localID e = some "local1" ∧ 0 ≤ j ∧
      (∀ j' e', j < j' → (notesCreate (createBody [localEntry "local1" "T" "C"]))[j']? = some e' →
        localID e' ≠ some "local1") ∧
      data.created_ids_notes "local1" = some (demoUuidNew j) ∧
      (∀ r ∈ aliceDB.notes, r.ID ≠ demoUuidNew j) ∧
      note ∈ (SyncHandler.Push demoLib demoUuidNew (fun _ => 60) 61 aliceDB aliceID
        (some (createBody [localEntry "local1" "T" "C"]))).1.notes ∧
      note.ID = demoUuidNew j ∧ note.UserID = aliceID ∧
      note.Title = asString (e "title") ∧ note.Content = asString (e "content") ∧
      (j = 0 → note.Title = "T" ∧ note.Content = "C") ∧
      (aliceID = aliceID →
        NotesHandler.Get (SyncHandler.Push demoLib demoUuidNew (fun _ => 60) 61 aliceDB aliceID
          (some (createBody [localEntry "local1" "T" "C"]))).1 aliceID (demoUuidNew j) =
          (200, some note)) :=
  Push_create_maps_local_id demoLib demoUuidNew (fun _ => 60) 61 aliceDB aliceID aliceID
    (createBody [localEntry "local1" "T" "C"]) 0 (localEntry "local1" "T" "C") "local1" "T" "C"
    (by decide) (by unfold FreshIDs; decide) (by decide) rfl rfl (by decide) rfl rfl

set_option maxRecDepth 20000 in
/-- C9, what the code does.  A caller with a UUID identifier pushes one entry
with local id local1 and a title of 201 characters: the store refuses the row,
Push drops the error of `h.db.Create`, answers 200 and maps local1 to the
generated identifier, yet no note is stored.  A caller whose identifier is not
a UUID pushes an entry with local id local1: Push panics in `uuid.MustParse`,
so there is no mapping and no note. -/
theorem Push_maps_id_without_note :
    (longTitle.length = 201 ∧ demoLib.uuidParse aliceID = some aliceID ∧
      (SyncHandler.Push demoLib demoUuidNew (fun _ => 60) 61 aliceDB aliceID
        (some (createBody [localEntry "local1" longTitle "C"]))).2.status = 200 ∧
      (match (SyncHandler.Push demoLib demoUuidNew (fun _ => 60) 61 aliceDB aliceID
          (some (createBody [localEntry "local1" longTitle "C"]))).2 with
        | .ok data => data.created_ids_notes "local1"
        | _ => none) = some (demoUuidNew 0) ∧
      (SyncHandler.Push demoLib demoUuidNew (fun _ => 60) 61 aliceDB aliceID
        (some (createBody [localEntry "local1" longTitle "C"]))).1.notes = []) ∧
    (demoLib.uuidParse "user-7" = none ∧
      (match (SyncHandler.Push demoLib demoUuidNew (fun _ => 60) 61 aliceDB "user-7"
          (some (createBody [localEntry "local1" "T" "C"]))).2 with
        | .ok data => data.created_ids_notes "local1"
        | _ => none) = none ∧
      (SyncHandler.Push demoLib demoUuidNew (fun _ => 60) 61 aliceDB "user-7"
        (some (createBody [localEntry "local1" "T" "C"]))).2.status = 500 ∧
      (SyncHandler.Push demoLib demoUuidNew (fun _ => 60) 61 aliceDB "user-7"
        (some (createBody [localEntry "local1" "T" "C"]))).1.notes = []) := by
  decide

/-- The frame of Push when nothing goes wrong: for a decoded batch pushed by
a caller whose identifier parses as a UUID, or whose `notes.create` list is
empty, with fresh values of `uuid.New()` and entries within the column sizes,
Push answers 200 with `conflicts` empty and `created_ids.categories` empty;
the users and categories it leaves are those it found, and the notes are
those it found followed by one new row per entry of `notes.create`, in order.
Store and response depend on the batch through `notes.create` alone, so
entries under notes.update, notes.delete and under categories change
nothing. -/
theorem Push_frame (lib : Lib) (uuidNew : Nat → UUID) (clock : Nat → Time) (now : Time)
    (db : DB) (userID : String) (body : PushBody)
    (hcaller : notesCreate body = [] ∨ ∃ uid, lib.uuidParse userID = some uid)
    (hfresh : FreshIDs uuidNew db (notesCreate body).length)
    (hfit : ∀ e ∈ notesCreate body, entryFits e = true) :
    (∃ (data : PushData) (inserted : List Note),
      SyncHandler.Push lib uuidNew clock now db userID (some body) =
        (⟨db.users, db.categories, db.notes ++ inserted⟩, .ok data) ∧
      inserted.length = (notesCreate body).length ∧
      (∀ uid, lib.uuidParse userID = some uid →
        inserted = insertedNotes uid uuidNew clock 0 (notesCreate body)) ∧
      data.status = 200 ∧ data.success = true ∧ data.conflicts = [] ∧
      data.created_ids_categories = GoMap.empty) ∧
    (∀ other : PushBody, notesCreate other = notesCreate body →
      SyncHandler.Push lib uuidNew clock now db userID (some other) =
        SyncHandler.Push lib uuidNew clock now db userID (some body)) := by
  refine ⟨?_, ?_⟩
  · rcases hcaller with hempty | ⟨uid, hparse⟩
    · refine ⟨⟨200, true, "Sync completed successfully", [], GoMap.empty, GoMap.empty, now⟩, [],
        ?_, by simp [hempty], ?_, rfl, rfl, rfl, rfl⟩
      · simp [SyncHandler.Push, hempty, pushLoop]
      · intro uid _
        simp [hempty, insertedNotes]
    · refine ⟨_, insertedNotes uid uuidNew clock 0 (notesCreate body),
        Push_spec lib uuidNew clock now db userID uid body hparse hfresh hfit,
        insertedNotes_length uid uuidNew clock _ 0, ?_, rfl, rfl, rfl, rfl⟩
      intro uid' hparse'
      rw [hparse] at hparse'
      cases hparse'
      rfl
  · intro other hsame
    simp only [SyncHandler.Push, hsame]

/-- The same at a concrete request: alice pushes one create entry together
with a categories entry. -/
theorem Push_frame_witness :
    SyncHandler.Push demoLib demoUuidNew (fun _ => 60) 61 aliceDB aliceID
        (some (((createBody [localEntry "local1" "T" "C"]).set "categories"
          (GoMap.empty.set "create" [localEntry "c1" "Work" ""])))) =
      SyncHandler.Push demoLib demoUuidNew (fun _ => 60) 61 aliceDB aliceID
        (some (createBody [localEntry "local1" "T" "C"])) :=
  (Push_frame demoLib demoUuidNew (fun _ => 60) 61 aliceDB aliceID
    (createBody [localEntry "local1" "T" "C"]) (Or.inr ⟨aliceID, by decide⟩)
    (by unfold FreshIDs; decide) (by decide)).2 _ rfl

set_option maxRecDepth 20000 in
/-- C10, what the code does.  A caller whose identifier is not a UUID pushes
a batch with one create entry: Push panics in `uuid.MustParse` and the request
ends with status 500, not 200.  A caller with a UUID identifier pushes one
create entry whose title has 201 characters: the store refuses the row, Push
drops the error and answers 200, and the store is as it was, with no note
inserted for the entry. -/
theorem Push_not_one_note_per_entry :
    (demoLib.uuidParse "user-7" = none ∧
      (SyncHandler.Push demoLib demoUuidNew (fun _ => 60) 61 aliceDB "user-7"
        (some (createBody [localEntry "" "T" "C"]))).2.status = 500 ∧
      (SyncHandler.Push demoLib demoUuidNew (fun _ => 60) 61 aliceDB "user-7"
        (some (createBody [localEntry "" "T" "C"]))).1 = aliceDB) ∧
    (longTitle.length = 201 ∧
      (notesCreate (createBody [localEntry "local1" longTitle "C"])).length = 1 ∧
      (SyncHandler.Push demoLib demoUuidNew (fun _ => 60) 61 aliceDB aliceID
        (some (createBody [localEntry "local1" longTitle "C"]))).2.status = 200 ∧
      (SyncHandler.Push demoLib demoUuidNew (fun _ => 60) 61 aliceDB aliceID
        (some (createBody [localEntry "local1" longTitle "C"]))).1 = aliceDB) := by
  decide

/-- Push on a batch whose two create entries share the local id local1: both
notes are stored and `created_ids.notes` maps local1 to the identifier of the
second one. -/
theorem Push_shared_local_id_sample :
    (match (SyncHandler.Push demoLib demoUuidNew (fun _ => 60) 61 aliceDB aliceID
        (some (createBody [localEntry "local1" "T1" "C1", localEntry "local1" "T2" "C2"]))).2 with
      | .ok data => data.created_ids_notes "local1"
      | _ => none) = some (demoUuidNew 1) ∧
    ((SyncHandler.Push demoLib demoUuidNew (fun _ => 60) 61 aliceDB aliceID
        (some (createBody [localEntry "local1" "T1" "C1", localEntry "local1" "T2" "C2"]))).1.notes.map
      (fun n => (n.ID, n.UserID, n.Title, n.Content))) =
      [(demoUuidNew 0, aliceID, "T1", "C1"), (demoUuidNew 1, aliceID, "T2", "C2")] := by
  decide

/-! ## C11: titles of persisted notes -/

theorem TrimSpace_empty : TrimSpace "" = "" := by decide

theorem title_ne_empty_of_TrimSpace {t : String} (h : TrimSpace t ≠ "") : t ≠ "" := by
  intro h0
  rw [h0] at h
  exact h TrimSpace_empty

theorem createNote_some {db db1 : DB} {now : Time} {n : Note}
    (h : db.createNote now n = some db1) :
    db1 = { db with notes := db.notes ++ [n.stamped now] } ∧ ∀ r ∈ db.notes, r.ID ≠ n.ID := by
  unfold DB.createNote at h
  split at h
  · cases h
  · rename_i hcond
    simp only [Option.some.injEq] at h
    refine ⟨h.symm, ?_⟩
    intro r hr heq
    apply hcond
    have hany : (db.notes.any fun r => r.ID == n.ID) = true := by
      simp only [List.any_eq_true]
      exact ⟨r, hr, by simp [heq]⟩
    simp [hany]

theorem Create_keeps_titles (lib : Lib) (newID : UUID) (dbNow : Time) (dbErr : String)
    (db : DB) (userID : String) (body : Option noteReq)
    (h : ∀ n ∈ db.notes, TrimSpace n.Title ≠ "") :
    ∀ n ∈ (NotesHandler.Create lib newID dbNow dbErr db userID body).1.notes,
      TrimSpace n.Title ≠ "" := by
  unfold NotesHandler.Create
  by_cases hu : TrimSpace userID = ""
  · simpa [hu] using h
  · cases hp : lib.uuidParse userID with
    | none => simpa [hu, hp] using h
    | some uid =>
      cases body with
      | none => simpa [hu, hp] using h
      | some req =>
        by_cases ht : TrimSpace req.Title = ""
        · simpa [hu, hp, ht] using h
        · cases hc : db.createNote dbNow
              ⟨newID, uid, req.Title, req.Content, req.Category, req.Tags, false, 0, 0, none⟩ with
          | none => simpa [hu, hp, ht, hc] using h
          | some db1 =>
            simp only [hu, hp, ht, hc, if_false]
            obtain ⟨hdb1, -⟩ := createNote_some hc
            subst hdb1
            intro n hn
            simp only [List.mem_append, List.mem_singleton] at hn
            rcases hn with hn | hn
            · exact h n hn
            · subst hn
              exact ht

theorem Update_keeps_titles (dbNow : Time) (db : DB) (userID id : String)
    (body : Option noteReq) (h : ∀ n ∈ db.notes, TrimSpace n.Title ≠ "") :
    ∀ n ∈ (NotesHandler.Update dbNow db userID id body).1.notes, TrimSpace n.Title ≠ "" := by
  unfold NotesHandler.Update
  split
  · exact h
  · split
    · exact h
    · split
      · exact h
      · split
        · exact h
        · rename_i note _ req hreq
          intro n hn
          simp only [DB.saveNote, List.mem_map] at hn
          obtain ⟨r, hr, hrn⟩ := hn
          split at hrn
          · subst hrn
            exact hreq
          · subst hrn
            exact h r hr

theorem Archive_keeps_titles (dbNow : Time) (db : DB) (userID id : String)
    (body : Option Bool) (h : ∀ n ∈ db.notes, TrimSpace n.Title ≠ "") :
    ∀ n ∈ (NotesHandler.Archive dbNow db userID id body).1.notes, TrimSpace n.Title ≠ "" := by
  unfold NotesHandler.Archive
  split
  · exact h
  · intro n hn
    simp only [DB.archiveNote, List.mem_map] at hn
    obtain ⟨r, hr, hrn⟩ := hn
    split at hrn
    · subst hrn
      exact h r hr
    · subst hrn
      exact h r hr

/-- Without Sync.Push the invariant of C11 holds: in every store reached
through Notes.Create, Notes.Update and Notes.Archive, every note has a title
that is not blank, hence not empty. -/
theorem titles_nonempty_without_push (lib : Lib) (db : DB) (h : Reachable lib false db) :
    ∀ n ∈ db.notes, TrimSpace n.Title ≠ "" ∧ n.Title ≠ "" := by
  have hmain : ∀ n ∈ db.notes, TrimSpace n.Title ≠ "" := by
    induction h with
    | empty => intro n hn; simp [emptyDB] at hn
    | create db newID dbNow dbErr userID body _ ih =>
      exact Create_keeps_titles lib newID dbNow dbErr db userID body ih
    | update db dbNow userID id body _ ih => exact Update_keeps_titles dbNow db userID id body ih
    | archive db dbNow userID id body _ ih =>
      exact Archive_keeps_titles dbNow db userID id body ih
    | push db uuidNew clock now userID body hp _ _ => cases hp
  intro n hn
  exact ⟨hmain n hn, title_ne_empty_of_TrimSpace (hmain n hn)⟩

/-- C11, what the code does: Sync.Push on the empty store, sent by a caller
with a UUID identifier, of one create entry that has no title is answered 200
and leaves a reachable store whose only note has the empty title. -/
theorem Push_stores_empty_title :
    Reachable demoLib true
      (SyncHandler.Push demoLib demoUuidNew (fun _ => 60) 61 emptyDB aliceID
        (some (createBody [untitledEntry "local1" "C"]))).1 ∧
    ((SyncHandler.Push demoLib demoUuidNew (fun _ => 60) 61 emptyDB aliceID
        (some (createBody [untitledEntry "local1" "C"]))).1.notes.map
      (fun n => (n.UserID, n.Title, n.Content))) = [(aliceID, "", "C")] ∧
    (SyncHandler.Push demoLib demoUuidNew (fun _ => 60) 61 emptyDB aliceID
        (some (createBody [untitledEntry "local1" "C"]))).2.status = 200 :=
  ⟨Reachable.push emptyDB demoUuidNew (fun _ => 60) 61 aliceID
      (some (createBody [untitledEntry "local1" "C"])) rfl Reachable.empty,
    by decide, by decide⟩

/-! ## C12: owner isolation of notes -/

theorem no_other_row_with_id {db : DB} {n : Note} {A B : String} (hn : n ∈ db.notes)
    (hA : n.UserID = A) (hAB : B ≠ A) (hkeys : db.NoteKeysUnique) :
    ∀ m ∈ db.notes, m.UserID = B → m.ID ≠ n.ID := by
  intro m hm hmB hid
  have hmn : m = n := List.inj_on_of_nodup_map hkeys hm hn hid
  rw [hmn, hA] at hmB
  exact hAB hmB.symm

theorem firstNote_other_owner {db : DB} {n : Note} {A B : String} (hn : n ∈ db.notes)
    (hA : n.UserID = A) (hAB : B ≠ A) (hkeys : db.NoteKeysUnique) :
    db.firstNote B n.ID = none := by
  unfold DB.firstNote
  rw [List.find?_eq_none]
  intro m hm
  by_cases hmB : m.UserID = B
  · have := no_other_row_with_id hn hA hAB hkeys m hm hmB
    simp [this]
  · simp [hmB]

theorem map_eq_self {α : Type} (f : α → α) (l : List α) (h : ∀ x ∈ l, f x = x) :
    l.map f = l := by
  induction l with
  | nil => rfl
  | cons a t ih =>
    simp only [List.map_cons]
    rw [h a (List.mem_cons_self _ _), ih (fun x hx => h x (List.mem_cons_of_mem _ hx))]

theorem limitOffset_subset {α : Type} {limit offset : Int} {rows notes : List α}
    (h : limitOffset limit offset rows = some notes) : ∀ m ∈ notes, m ∈ rows := by
  unfold limitOffset at h
  split at h
  · simp only [Option.some.injEq] at h
    subst h
    intro m hm
    exact List.mem_of_mem_drop (List.mem_of_mem_take hm)
  · split at h
    · cases h
    · simp only [Option.some.injEq] at h
      subst h
      exact fun m hm => hm

theorem listRows_owner (like : String → String → Bool) (db : DB) (userID : String)
    (query : ListQuery) : ∀ m ∈ listRows like db userID query, m ∈ db.notes ∧ m.UserID = userID := by
  intro m hm
  unfold listRows at hm
  rw [List.mem_filter] at hm
  obtain ⟨hin, hp⟩ := hm
  simp only [Bool.and_eq_true, beq_iff_eq] at hp
  exact ⟨hin, hp.1.1.1⟩

theorem List_owner (like : String → String → Bool) (Sscanf : String → Option Int) (db : DB)
    (userID : String) (query : ListQuery) (notes : List Note) (p tp ti ipp : Int)
    (h : NotesHandler.List like Sscanf db userID query = .ok notes p tp ti ipp) :
    ∀ m ∈ notes, m ∈ db.notes ∧ m.UserID = userID := by
  unfold NotesHandler.List at h
  simp only at h
  split at h
  · cases h
  · rename_i rows hrows
    split at h
    · cases h
    · simp only [ListResponse.ok.injEq] at h
      obtain ⟨rfl, -⟩ := h
      intro m hm
      have := limitOffset_subset hrows m hm
      exact listRows_owner like db userID query m
        ((List.perm_insertionSort Note.newerEq _).subset this)

theorem searchRows_owner (like : String → String → Bool) (db : DB) (userID q scope : String) :
    ∀ m ∈ searchRows like db userID q scope, m ∈ db.notes ∧ m.UserID = userID := by
  intro m hm
  unfold searchRows at hm
  have hm1 := (List.perm_insertionSort Note.newerEq _).subset (List.mem_of_mem_take hm)
  rw [List.mem_filter] at hm1
  obtain ⟨hin, hp⟩ := hm1
  simp only [Bool.and_eq_true, beq_iff_eq] at hp
  exact ⟨hin, hp.1.1⟩

/-- C12: let the store keep its primary key, let note `n` in it be owned by
`A`, and let the caller be `B`, different from `A`.  Then Get on the id of `n`
answers 404 NOTE_NOT_FOUND; every note List returns and every note behind a
Search result is a stored note owned by `B`, so neither holds `n` or its id;
Update on the id of `n` answers 401 or 404 without a note and Delete answers
its fixed message, both leaving the store as it was; Archive leaves the store
as it was and answers with the zero note; BulkDelete leaves `n` in the store
and answers with a count only. -/
theorem notes_owner_isolation (like : String → String → Bool) (Sscanf : String → Option Int)
    (db : DB) (n : Note) (A B : String) (dbNow now : Time)
    (hn : n ∈ db.notes) (hA : n.UserID = A) (hAB : B ≠ A) (hkeys : db.NoteKeysUnique) :
    NotesHandler.GetResponse db B n.ID =
      .fail 404 ⟨false, "Note not found", some "NOTE_NOT_FOUND"⟩ none ∧
    (∀ query notes p tp ti ipp,
      NotesHandler.List like Sscanf db B query = .ok notes p tp ti ipp →
      n ∉ notes ∧ ∀ m ∈ notes, m ∈ db.notes ∧ m.UserID = B) ∧
    (∀ q scope results total ms,
      SearchHandler.Search like now db B q scope = .ok results total ms →
      ∀ hit ∈ results, hit.id ≠ n.ID ∧
        ∃ m ∈ db.notes, m.UserID = B ∧ hit.id = m.ID ∧ hit.title = m.Title ∧
          hit.content = m.Content) ∧
    (∀ body, (NotesHandler.Update dbNow db B n.ID body).1 = db ∧
      ((NotesHandler.Update dbNow db B n.ID body).2 =
          .fail 401 ⟨false, "Missing user", some "TOKEN_INVALID"⟩ none ∨
        (NotesHandler.Update dbNow db B n.ID body).2 =
          .fail 404 ⟨false, "Note not found", some "NOTE_NOT_FOUND"⟩ none)) ∧
    NotesHandler.Delete dbNow db B n.ID =
      (db, .ok 200 (some "Note deleted successfully") none) ∧
    (∀ body, (NotesHandler.Archive dbNow db B n.ID body).1 = db ∧
      ((NotesHandler.Archive dbNow db B n.ID body).2 =
          .fail 400 ⟨false, "Invalid request", none⟩ none ∨
        (NotesHandler.Archive dbNow db B n.ID body).2 =
          .ok 200 (some "Note archived successfully") (some Note.zero))) ∧
    (∀ body, n ∈ (NotesHandler.BulkDelete dbNow db B body).1.notes ∧
      ((∃ eb, (NotesHandler.BulkDelete dbNow db B body).2 = .fail 400 eb) ∨
        ∃ count, (NotesHandler.BulkDelete dbNow db B body).2 =
          .ok 200 "bulk delete" count [])) := by
  have hnone := firstNote_other_owner hn hA hAB hkeys
  have hrow := no_other_row_with_id hn hA hAB hkeys
  have hnB : n.UserID ≠ B := by rw [hA]; exact fun h => hAB h.symm
  have hdel : db.deleteNotes dbNow B [n.ID] = db := by
    unfold DB.deleteNotes
    rw [map_eq_self]
    intro r hr
    by_cases hrB : r.UserID = B
    · have := hrow r hr hrB
      simp [this]
    · simp [hrB]
  have harch : ∀ archived, db.archiveNote dbNow B n.ID archived = db := by
    intro archived
    unfold DB.archiveNote
    rw [map_eq_self]
    intro r hr
    by_cases hrB : r.UserID = B
    · have := hrow r hr hrB
      simp [this]
    · simp [hrB]
  refine ⟨?_, ?_, ?_, ?_, ?_, ?_, ?_⟩
  · simp [NotesHandler.GetResponse, hnone]
  · intro query notes p tp ti ipp h
    have hall := List_owner like Sscanf db B query notes p tp ti ipp h
    exact ⟨fun hmem => hnB (hall n hmem).2, hall⟩
  · intro q scope results total ms h
    unfold SearchHandler.Search at h
    split at h
    · cases h
    · simp only [SearchResponse.ok.injEq] at h
      obtain ⟨rfl, -⟩ := h
      intro hit hhit
      rw [List.mem_map] at hhit
      obtain ⟨m, hm, rfl⟩ := hhit
      obtain ⟨hin, hmB⟩ := searchRows_owner like db B q _ m hm
      exact ⟨hrow m hin hmB, m, hin, hmB, rfl, rfl, rfl⟩
  · intro body
    unfold NotesHandler.Update
    by_cases hu : TrimSpace B = ""
    · simp [hu]
    · simp [hu, hnone]
  · simp [NotesHandler.Delete, hdel]
  · intro body
    cases body with
    | none => simp [NotesHandler.Archive]
    | some archived => simp [NotesHandler.Archive, harch, hnone]
  · intro body
    have hkeep : ∀ ids, n ∈ (db.deleteNotes dbNow B ids).notes := by
      intro ids
      unfold DB.deleteNotes
      simp only [List.mem_map]
      exact ⟨n, hn, by simp [hnB]⟩
    cases body with
    | none => exact ⟨by simpa [NotesHandler.BulkDelete] using hn, Or.inl ⟨_, rfl⟩⟩
    | some ids =>
      by_cases hlen : ids.length = 0
      · exact ⟨by simpa [NotesHandler.BulkDelete, hlen] using hn,
          Or.inl ⟨⟨false, "Invalid request", some "VALIDATION_ERROR"⟩,
            by simp [NotesHandler.BulkDelete, hlen]⟩⟩
      · refine ⟨?_, Or.inr ⟨db.deleteCount B ids, ?_⟩⟩
        · simpa [NotesHandler.BulkDelete, hlen] using hkeep ids
        · simp [NotesHandler.BulkDelete, hlen]

/-- C12 at a concrete store: bob asks for alice's note n1. -/
theorem notes_owner_isolation_witness :
    NotesHandler.GetResponse twoOwnersDB bobID "n1" =
      .fail 404 ⟨false, "Note not found", some "NOTE_NOT_FOUND"⟩ none :=
  (notes_owner_isolation demoLike demoSscanf twoOwnersDB
    ⟨"n1", aliceID, "old", "", none, [], false, 1, 10, none⟩ aliceID bobID 9 9
    (by decide) rfl (by decide) (by unfold DB.NoteKeysUnique; decide)).1

/-! ## C13: CORS -/

theorem pickAllow_unlisted (origin : String) :
    ∀ entries : List String, (∀ a ∈ entries, a ≠ "*") → (∀ a ∈ entries, TrimSpace a ≠ origin) →
      pickAllow origin entries = "*"
  | [], _, _ => rfl
  | a :: rest, hstar, hno => by
    have h1 : a ≠ "*" := hstar a (List.mem_cons_self _ _)
    have h2 : TrimSpace a ≠ origin := hno a (List.mem_cons_self _ _)
    simp only [pickAllow, h1, h2, or_self, if_false]
    exact pickAllow_unlisted origin rest (fun b hb => hstar b (List.mem_cons_of_mem _ hb))
      (fun b hb => hno b (List.mem_cons_of_mem _ hb))

theorem pickAllow_listed (origin : String) :
    ∀ entries : List String, (∀ a ∈ entries, a ≠ "*") → (∃ a ∈ entries, TrimSpace a = origin) →
      pickAllow origin entries = origin
  | [], _, h => by
    obtain ⟨a, ha, -⟩ := h
    cases ha
  | a :: rest, hstar, h => by
    have h1 : a ≠ "*" := hstar a (List.mem_cons_self _ _)
    by_cases h2 : TrimSpace a = origin
    · simp [pickAllow, h2]
    · simp only [pickAllow, h1, h2, or_self, if_false]
      apply pickAllow_listed origin rest (fun b hb => hstar b (List.mem_cons_of_mem _ hb))
      obtain ⟨b, hb, hbo⟩ := h
      rcases List.mem_cons.1 hb with rfl | hb'
      · exact absurd hbo h2
      · exact ⟨b, hb', hbo⟩

/-- C13, what the code does: for an allow-list without a `*` entry, a request
whose Origin differs from every trimmed entry gets
`Access-Control-Allow-Origin: *`, the initial value of `allow`; a request
whose Origin equals a trimmed entry gets that Origin. -/
theorem CORS_unlisted_origin_gets_wildcard (allowOrigins method origin : String)
    (hstar : ∀ a ∈ Split allowOrigins ',', a ≠ "*") :
    ((∀ a ∈ Split allowOrigins ',', TrimSpace a ≠ origin) →
      (CORS allowOrigins method origin).allowOrigin = "*") ∧
    ((∃ a ∈ Split allowOrigins ',', TrimSpace a = origin) →
      (CORS allowOrigins method origin).allowOrigin = origin) := by
  have hallow : (CORS allowOrigins method origin).allowOrigin =
      pickAllow origin (Split allowOrigins ',') := by
    unfold CORS
    split <;> rfl
  rw [hallow]
  exact ⟨pickAllow_unlisted origin _ hstar, pickAllow_listed origin _ hstar⟩

/-- C13 at a concrete request: two configured origins, a third one asking. -/
theorem CORS_unlisted_origin_gets_wildcard_witness :
    (CORS "https://app.example.com, https://admin.example.com" "GET"
      "https://evil.example").allowOrigin = "*" :=
  (CORS_unlisted_origin_gets_wildcard "https://app.example.com, https://admin.example.com" "GET"
    "https://evil.example" (by decide)).1 (by decide)

/-! ## C14: pagination of Notes.List -/

theorem wrap64_of_range {x : Int} (hlo : -(2 ^ 63 : Int) ≤ x) (hhi : x < 2 ^ 63) :
    wrap64 x = x := by
  unfold wrap64
  norm_num at hlo hhi ⊢
  omega

/-- C14, what the code does: whenever the `limit` parameter reads as 0, List
ends in the division of `total_pages` by zero, a run-time panic, whatever the
store and the other parameters are. -/
theorem List_limit_zero_panics (like : String → String → Bool) (Sscanf : String → Option Int)
    (db : DB) (userID : String) (query : ListQuery)
    (hl : query.limit ≠ "") (h0 : Sscanf query.limit = some 0) :
    NotesHandler.List like Sscanf db userID query = .panicked := by
  have hw : wrap64 0 = 0 := by decide
  simp [NotesHandler.List, hl, h0, hw, limitOffset, div64]

/-- C14 at a concrete request: `limit=0`. -/
theorem List_limit_zero_panics_witness :
    NotesHandler.List demoLike demoSscanf twoOwnersDB aliceID ⟨"", "", "", "0"⟩ = .panicked :=
  List_limit_zero_panics demoLike demoSscanf twoOwnersDB aliceID ⟨"", "", "", "0"⟩
    (by decide) (by decide)

/-- For a positive `limit` and without overflow of `total + limit`, the
`total_pages` List reports is the ceiling of `total_items / items_per_page`:
the least `n` of 0 or more with `n * limit` at least the total. -/
theorem List_total_pages_ceiling (like : String → String → Bool)
    (Sscanf : String → Option Int) (db : DB) (userID : String) (query : ListQuery)
    (notes : List Note) (p tp ti ipp : Int)
    (h : NotesHandler.List like Sscanf db userID query = .ok notes p tp ti ipp)
    (hpos : 0 < ipp) (hfit : ti + ipp < 2 ^ 63) :
    0 ≤ ti ∧ 0 ≤ tp ∧ ti ≤ tp * ipp ∧ ∀ m : Int, 0 ≤ m → ti ≤ m * ipp → tp ≤ m := by
  unfold NotesHandler.List at h
  simp only at h
  split at h
  · cases h
  · split at h
    · cases h
    · rename_i totalPages hdiv
      simp only [ListResponse.ok.injEq] at h
      obtain ⟨-, -, rfl, rfl, rfl⟩ := h
      have hti : (0 : Int) ≤ ((listRows like db userID query).length : Int) :=
        Int.ofNat_nonneg _
      generalize ((listRows like db userID query).length : Int) = t at *
      generalize (if query.limit ≠ "" then (Sscanf query.limit).getD 20 else 20) = l at *
      have h1 : wrap64 (t + l) = t + l := wrap64_of_range (by omega) hfit
      have h2 : wrap64 (t + l - 1) = t + l - 1 := wrap64_of_range (by omega) (by omega)
      have hne : l ≠ 0 := by omega
      have hq0 : 0 ≤ (t + l - 1) / l := Int.ediv_nonneg (by omega) (by omega)
      have hmul : (t + l - 1) / l * l ≤ t + l - 1 := Int.ediv_mul_le _ hne
      have hqle : (t + l - 1) / l ≤ t + l - 1 := by
        have : (t + l - 1) / l * 1 ≤ (t + l - 1) / l * l :=
          Int.mul_le_mul_of_nonneg_left (by omega) hq0
        omega
      have h3 : wrap64 ((t + l - 1) / l) = (t + l - 1) / l :=
        wrap64_of_range (by omega) (by omega)
      simp only [div64, h1, h2, hne, if_false, Option.some.injEq,
        Int.tdiv_eq_ediv (show (0 : Int) ≤ t + l - 1 by omega) (le_of_lt hpos), h3] at hdiv
      subst hdiv
      have hmod := Int.emod_add_ediv (t + l - 1) l
      have hmlt := Int.emod_lt_of_pos (t + l - 1) hpos
      have hmnn := Int.emod_nonneg (t + l - 1) hne
      refine ⟨hti, hq0, ?_, ?_⟩
      · have : l * ((t + l - 1) / l) = (t + l - 1) / l * l := Int.mul_comm _ _
        omega
      · intro m hm htm
        by_contra hcon
        have hlt : m + 1 ≤ (t + l - 1) / l := by omega
        have : (m + 1) * l ≤ (t + l - 1) / l * l :=
          Int.mul_le_mul_of_nonneg_right hlt (le_of_lt hpos)
        have hexp : (m + 1) * l = m * l + l := by ring
        omega

/-- A negative `limit` does not fault but reports no page for two items, and a
`limit` at the top of `int64` reports a negative number of pages. -/
theorem List_nonpositive_limit_samples :
    NotesHandler.List demoLike demoSscanf twoOwnersDB aliceID ⟨"", "", "", "-5"⟩ =
      .ok ((listRows demoLike twoOwnersDB aliceID ⟨"", "", "", "-5"⟩).insertionSort
        Note.newerEq) 1 0 2 (-5) ∧
    NotesHandler.List demoLike demoSscanf twoOwnersDB aliceID
        ⟨"", "", "", "9223372036854775807"⟩ =
      .ok ((listRows demoLike twoOwnersDB aliceID ⟨"", "", "", ""⟩).insertionSort
        Note.newerEq) 1 (-1) 2 9223372036854775807 := by
  decide

/-! ## C15: Push and subjects that are not UUIDs -/

theorem Push_panics_of_not_uuid (lib : Lib) (uuidNew : Nat → UUID) (clock : Nat → Time)
    (now : Time) (db : DB) (userID : String) (body : PushBody)
    (hparse : lib.uuidParse userID = none) (hentry : notesCreate body ≠ []) :
    SyncHandler.Push lib uuidNew clock now db userID (some body) = (db, .panicked) := by
  cases hes : notesCreate body with
  | nil => exact absurd hes hentry
  | cons e rest => simp [SyncHandler.Push, hes, pushLoop, pushEntry, hparse]

/-- C15, what the code does: a token signed with the configured secret for a
non-empty subject that is not a UUID is admitted by `JWTAuth`, which puts the
subject in the context; Push of a batch with at least one `notes.create` entry
then panics in `uuid.MustParse` and stores nothing, and so does the categories
Create for a valid body, while Notes.Create answers the same subject with 401
TOKEN_INVALID. -/
theorem Push_panics_on_admitted_subject (lib : Lib) (cfg : Config) (issued : Time)
    (clock : Clock) (header : GoMap String) (u : String) (uuidNew : Nat → UUID)
    (stamps : Nat → Time) (now : Time) (db : DB) (body : PushBody)
    (hv : clock.validator < expiryOf issued) (hh : clock.handler < expiryOf issued)
    (hu : u ≠ "") (hdec : lib.Decodes cfg.JWTSecret (signTokenClaims issued u))
    (hauth : header "Authorization" =
      some ("Bearer " ++ AuthHandler.signToken lib cfg issued u))
    (hparse : lib.uuidParse u = none) (hentry : notesCreate body ≠ []) :
    (JWTAuth lib cfg.JWTSecret clock (Context.request header)).aborted = false ∧
    (JWTAuth lib cfg.JWTSecret clock (Context.request header)).nextRan = true ∧
    (JWTAuth lib cfg.JWTSecret clock (Context.request header)).GetString "user_id" = u ∧
    SyncHandler.Push lib uuidNew stamps now db
        ((JWTAuth lib cfg.JWTSecret clock (Context.request header)).GetString "user_id")
        (some body) = (db, .panicked) ∧
    (∀ (newID : UUID) (dbNow : Time) (req : categoryReq), req.Struct = true →
      CategoriesHandler.Create lib newID dbNow db u (some req) = (db, .panicked)) ∧
    (∀ (newID : UUID) (dbNow : Time) (dbErr : String) (noteBody : Option noteReq),
      ∃ msg, NotesHandler.Create lib newID dbNow dbErr db u noteBody =
        (db, .fail 401 ⟨false, msg, some "TOKEN_INVALID"⟩ none)) := by
  have hgate := JWTAuth_signToken lib cfg issued clock header u hv hh hu hdec hauth
  have hget : (JWTAuth lib cfg.JWTSecret clock (Context.request header)).GetString "user_id"
      = u := by
    rw [hgate]
    simp [Context.GetString, Context.Set, Context.Next, GoMap.set]
  refine ⟨by rw [hgate]; rfl, by rw [hgate]; rfl, hget, ?_, ?_, ?_⟩
  · rw [hget]
    exact Push_panics_of_not_uuid lib uuidNew stamps now db u body hparse hentry
  · intro newID dbNow req hreq
    simp [CategoriesHandler.Create, hreq, hparse]
  · intro newID dbNow dbErr noteBody
    by_cases hblank : TrimSpace u = ""
    · exact ⟨"Missing user", by simp [NotesHandler.Create, hblank]⟩
    · exact ⟨"Invalid user id", by simp [NotesHandler.Create, hblank, hparse]⟩

theorem demoLib_Decodes_user7 :
    demoLib.Decodes "s3cr3t" (signTokenClaims 900000000 "user-7") :=
  ⟨⟨"HS256", signTokenClaims 900000000 "user-7",
      demoLib.signingString (signTokenClaims 900000000 "user-7"),
      demoLib.hmacSHA256 "s3cr3t" (demoLib.signingString (signTokenClaims 900000000 "user-7"))⟩,
    rfl, rfl, rfl, rfl, rfl⟩

/-- C15 at a concrete request: the subject user-7 and one create entry. -/
theorem Push_panics_on_admitted_subject_witness :
    SyncHandler.Push demoLib demoUuidNew (fun _ => 60) 61 aliceDB
        ((JWTAuth demoLib "s3cr3t" ⟨86399000000000, 86399000000000⟩
          (Context.request (authHeader
            ("Bearer " ++ AuthHandler.signToken demoLib ⟨"s3cr3t"⟩ 900000000 "user-7")))).GetString
          "user_id")
        (some (createBody [localEntry "local1" "T" "C"])) = (aliceDB, .panicked) :=
  (Push_panics_on_admitted_subject demoLib ⟨"s3cr3t"⟩ 900000000
    ⟨86399000000000, 86399000000000⟩
    (authHeader ("Bearer " ++ AuthHandler.signToken demoLib ⟨"s3cr3t"⟩ 900000000 "user-7"))
    "user-7" demoUuidNew (fun _ => 60) 61 aliceDB (createBody [localEntry "local1" "T" "C"])
    (by decide) (by decide) (by decide) demoLib_Decodes_user7 rfl (by decide)
    (by
      intro h
      have := congrArg List.length h
      simp [notesCreate, createBody, GoMap.set] at this)).2.2.2.1


/-! ## The primary key of notes is an invariant -/

theorem createNote_keys {db db1 : DB} {now : Time} {n : Note} (hk : db.NoteKeysUnique)
    (h : db.createNote now n = some db1) : db1.NoteKeysUnique := by
  obtain ⟨rfl, hfresh⟩ := createNote_some h
  unfold DB.NoteKeysUnique at hk ⊢
  simp only [List.map_append, List.map_cons, List.map_nil]
  rw [List.nodup_append]
  refine ⟨hk, List.nodup_singleton _, ?_⟩
  intro x hx hx'
  simp only [List.mem_singleton] at hx'
  rw [List.mem_map] at hx
  obtain ⟨r, hr, hrx⟩ := hx
  exact hfresh r hr (by rw [hrx, hx']; rfl)

theorem map_keys (f : Note → Note) (l : List Note) (h : ∀ r ∈ l, (f r).ID = r.ID) :
    (l.map f).map (fun r => r.ID) = l.map (fun r => r.ID) := by
  induction l with
  | nil => rfl
  | cons a t ih =>
    simp only [List.map_cons]
    rw [h a (List.mem_cons_self _ _), ih (fun r hr => h r (List.mem_cons_of_mem _ hr))]

theorem pushLoop_keys (lib : Lib) (uuidNew : Nat → UUID) (clock : Nat → Time)
    (userID : String) :
    ∀ (es : List (GoMap JsonVal)) (st st1 : PushState), st.db.NoteKeysUnique →
      pushLoop lib uuidNew clock userID st es = some st1 → st1.db.NoteKeysUnique
  | [], st, st1, hk, h => by
    simp only [pushLoop, Option.some.injEq] at h
    subst h
    exact hk
  | e :: rest, st, st1, hk, h => by
    rw [pushLoop] at h
    cases hp : pushEntry lib uuidNew clock userID st e with
    | none => simp [hp] at h
    | some st2 =>
      simp only [hp] at h
      refine pushLoop_keys lib uuidNew clock userID rest st2 st1 ?_ h
      unfold pushEntry at hp
      cases hu : lib.uuidParse userID with
      | none => simp [hu] at hp
      | some uid =>
        simp only [hu, Option.some.injEq] at hp
        subst hp
        cases hc : st.db.createNote (clock st.calls)
            ⟨uuidNew st.calls, uid, asString (e "title"), asString (e "content"), none, [],
              false, 0, 0, none⟩ with
        | none => simpa [hc] using hk
        | some db1 => simpa [hc] using createNote_keys hk hc

/-- Every store reached through the note-writing operations keeps the primary
key of notes, which is what C12 asks of the store. -/
theorem Reachable_keys (lib : Lib) (withPush : Bool) (db : DB)
    (h : Reachable lib withPush db) : db.NoteKeysUnique := by
  induction h with
  | empty => exact List.nodup_nil
  | create db newID dbNow dbErr userID body _ ih =>
    unfold NotesHandler.Create
    by_cases hu : TrimSpace userID = ""
    · simpa [hu] using ih
    · cases hp : lib.uuidParse userID with
      | none => simpa [hu, hp] using ih
      | some uid =>
        cases body with
        | none => simpa [hu, hp] using ih
        | some req =>
          by_cases ht : TrimSpace req.Title = ""
          · simpa [hu, hp, ht] using ih
          · cases hc : db.createNote dbNow
                ⟨newID, uid, req.Title, req.Content, req.Category, req.Tags, false, 0, 0,
                  none⟩ with
            | none => simpa [hu, hp, ht, hc] using ih
            | some db1 => simpa [hu, hp, ht, hc] using createNote_keys ih hc
  | update db dbNow userID id body _ ih =>
    unfold NotesHandler.Update
    by_cases hu : TrimSpace userID = ""
    · simpa [hu] using ih
    · cases hf : db.firstNote userID id with
      | none => simpa [hu, hf] using ih
      | some note =>
        cases body with
        | none => simpa [hu, hf] using ih
        | some req =>
          by_cases ht : TrimSpace req.Title = ""
          · simpa [hu, hf, ht] using ih
          · simp only [hu, hf, ht, if_false]
            unfold DB.NoteKeysUnique DB.saveNote at *
            simp only
            rw [map_keys]
            · exact ih
            · intro r _
              by_cases hc : (r.ID == note.ID && r.DeletedAt.isNone) = true
              · simp only [hc, if_true]
                simp only [Bool.and_eq_true, beq_iff_eq] at hc
                exact hc.1.symm
              · simp [hc]
  | archive db dbNow userID id body _ ih =>
    unfold NotesHandler.Archive
    cases body with
    | none => simpa using ih
    | some archived =>
      simp only
      unfold DB.NoteKeysUnique DB.archiveNote at *
      simp only
      rw [map_keys]
      · exact ih
      · intro r _
        split <;> rfl
  | push db uuidNew clock now userID body _ _ ih =>
    unfold SyncHandler.Push
    cases body with
    | none => simpa using ih
    | some b =>
      simp only
      cases hl : pushLoop lib uuidNew clock userID ⟨db, GoMap.empty, 0⟩ (notesCreate b) with
      | none => simpa using ih
      | some st => simpa using pushLoop_keys lib uuidNew clock userID _ _ st ih hl

/-- The two views of `NotesHandler.Get` agree: the pair of status and note is
read off the whole response. -/
theorem GetResponse_agrees (db : DB) (userID id : String) :
    (NotesHandler.Get db userID id = (404, none) ∧
      NotesHandler.GetResponse db userID id =
        .fail 404 ⟨false, "Note not found", some "NOTE_NOT_FOUND"⟩ none) ∨
    ∃ note, NotesHandler.Get db userID id = (200, some note) ∧
      NotesHandler.GetResponse db userID id = .ok 200 none (some note) := by
  cases h : db.firstNote userID id with
  | none => exact Or.inl ⟨by simp [NotesHandler.Get, h], by simp [NotesHandler.GetResponse, h]⟩
  | some note =>
    exact Or.inr ⟨note, by simp [NotesHandler.Get, h], by simp [NotesHandler.GetResponse, h]⟩

end NotesApi
